import Mathlib

/-!
Verification of the phosphor `Widget` base class (src/widgets/widget.ts).

The widget arena is modelled shallowly: widgets live in a `World` indexed by
`WidgetId`, layout strategies in a parallel table indexed by `LayoutId`.  The
recursive synchronous message machinery (`sendMessage` / `processMessage` /
`sendAll` / `sendNonHidden`, the `parent` setter, `detach`) is defunctionalized
into a single fuel-indexed step function `step` so that every run is a total,
kernel-computable function; `none` means the fuel ran out, never an error of
the program.  Thrown JavaScript errors are modelled with `Except`.

External collaborators that are not part of src/widgets/widget.ts are modelled
from the spec where the claims need them and are marked as such:
the message dispatcher (`sendMessage` delivers synchronously, `postMessage`
enqueues with the compression predicate, `clearMessageData` drops a handler's
pending/filter state), the layout strategy object (single `parent` slot,
`invalidate`, `dispose`), and the box-sizing provider (style-derived metrics,
held per widget in `styleBox`).  Message filters installed by layouts are
modelled as pass-through: interception behaviour lives outside the source
file, and no flag of a widget is ever mutated by a filter.

JavaScript numbers are modelled as `Int`: the geometry claims are about exact
numeric comparison and min/max clipping, which Int captures.
-/

/-- Identifier of a widget in the arena. -/
abbrev WidgetId := Nat

/-- Identifier of a layout strategy object. -/
abbrev LayoutId := Nat

/-- Identifier of an external host DOM element (argument of `attach`). -/
abbrev HostId := Nat

/-- Where a widget's DOM node is currently inserted: in a host element
(after `attach`) or inside another widget's node (after `child-added`). -/
inductive DomParent where
  | host (h : HostId)
  | widgetNode (w : WidgetId)
deriving DecidableEq, Repr

/-- Box metrics computed from a node's style (`utility.createBoxSizing`):
padding origin, border/padding sums and min/max size limits.  External
collaborator; the fields are the ones `widget.ts` reads. -/
structure BoxSizing where
  paddingLeft : Int
  paddingTop : Int
  horizontalSum : Int
  verticalSum : Int
  minWidth : Int
  minHeight : Int
  maxWidth : Int
  maxHeight : Int
deriving DecidableEq, Repr

/-- A neutral box: no padding, no minimum, a large maximum. -/
def BoxSizing.free : BoxSizing :=
  { paddingLeft := 0, paddingTop := 0, horizontalSum := 0, verticalSum := 0,
    minWidth := 0, minHeight := 0, maxWidth := 1000000, maxHeight := 1000000 }

/-- The state of one `Widget` object.  Fields mirror the private fields of the
class; the bit flags of `_flags` (`WidgetFlag` is declared outside this file)
are modelled as the independent booleans they encode, one per distinct bit.
`hiddenClass` is membership of `p-mod-hidden` in the node's class list;
`nodeAlive` is `_node !== null`; `nodeParent` is `_node.parentNode`;
`styleBox` is what `createBoxSizing(this._node)` would compute (external);
`signalConnected` tracks the single-fire `disposed` signal. -/
structure Widget where
  layout : Option LayoutId
  parent : Option WidgetId
  children : List WidgetId
  sizePolicy : Nat
  boxSizing : Option BoxSizing
  x : Int
  y : Int
  width : Int
  height : Int
  isAttachedF : Bool
  isDisposedF : Bool
  isHiddenF : Bool
  isVisibleF : Bool
  disallowLayoutChange : Bool
  hiddenClass : Bool
  nodeAlive : Bool
  nodeParent : Option DomParent
  styleBox : BoxSizing
deriving Repr

/-- A freshly constructed widget: detached, unparented, all flags clear. -/
def Widget.init : Widget :=
  { layout := none, parent := none, children := [], sizePolicy := 0,
    boxSizing := none, x := 0, y := 0, width := 0, height := 0,
    isAttachedF := false, isDisposedF := false, isHiddenF := false,
    isVisibleF := false, disallowLayoutChange := false, hiddenClass := false,
    nodeAlive := true, nodeParent := none, styleBox := BoxSizing.free }

/-- Modelled from the spec: the layout strategy collaborator (`Layout` is not
in src/widgets/widget.ts).  It exposes a single-owner `parent` slot,
`invalidate()` and `dispose()`; disposal releases the slot. -/
structure LayoutObj where
  parent : Option WidgetId
  disposed : Bool
  invalidated : Bool
deriving DecidableEq, Repr

/-- A fresh, unowned layout strategy. -/
def LayoutObj.init : LayoutObj :=
  { parent := none, disposed := false, invalidated := false }

/-- The messages `widget.ts` creates (`Message`, `ChildMessage`, `MoveMessage`,
`ResizeMessage`).  The string-tagged `type` field becomes the constructor. -/
inductive Msg where
  | move (oldX oldY newX newY : Int)
  | resize (oldW oldH newW newH : Int)
  | childAdded (child : WidgetId)
  | childRemoved (child : WidgetId)
  | childShown (child : WidgetId)
  | childHidden (child : WidgetId)
  | beforeShow
  | afterShow
  | beforeHide
  | afterHide
  | beforeAttach
  | afterAttach
  | beforeDetach
  | afterDetach
  | parentChanged
  | layoutChanged
  | close
  | layoutRequest
deriving DecidableEq, Repr

/-- The `type` tag of a message, as compared by the string switch of
`processMessage` and by `compressMessage`. -/
inductive MsgTy where
  | move | resize | childAdded | childRemoved | childShown | childHidden
  | beforeShow | afterShow | beforeHide | afterHide
  | beforeAttach | afterAttach | beforeDetach | afterDetach
  | parentChanged | layoutChanged | close | layoutRequest
deriving DecidableEq, Repr

/-- Message type tag (the JS `msg.type` string). -/
def Msg.ty : Msg → MsgTy
  | .move _ _ _ _ => .move
  | .resize _ _ _ _ => .resize
  | .childAdded _ => .childAdded
  | .childRemoved _ => .childRemoved
  | .childShown _ => .childShown
  | .childHidden _ => .childHidden
  | .beforeShow => .beforeShow
  | .afterShow => .afterShow
  | .beforeHide => .beforeHide
  | .afterHide => .afterHide
  | .beforeAttach => .beforeAttach
  | .afterAttach => .afterAttach
  | .beforeDetach => .beforeDetach
  | .afterDetach => .afterDetach
  | .parentChanged => .parentChanged
  | .layoutChanged => .layoutChanged
  | .close => .close
  | .layoutRequest => .layoutRequest

/-- Errors thrown by `widget.ts` (the four `throw new Error(...)` sites). -/
inductive WErr where
  | nonRootAttach
  | nonRootDetach
  | nonRootFit
  | layoutChangeDisallowed
  | layoutAlreadyInstalled
deriving DecidableEq, Repr

/-- The whole mutable state: the widget arena, the layout-object arena, the
per-handler message filters, the dispatcher's pending posted queue, the
ordered log of every synchronous delivery, and the ordered log of `dispose`
invocations (instrumentation used to state the disposal claims). -/
structure World where
  widget : WidgetId → Widget
  layoutObj : LayoutId → LayoutObj
  filters : WidgetId → List LayoutId
  posted : List (WidgetId × Msg)
  log : List (WidgetId × Msg)
  disposeLog : List WidgetId

/-- The widget stored at an id. -/
def getW (w : World) (i : WidgetId) : Widget := w.widget i

/-- Replace the widget stored at an id. -/
def putW (w : World) (i : WidgetId) (x : Widget) : World :=
  { w with widget := fun j => if j = i then x else w.widget j }

/-- Update the widget stored at an id. -/
def updW (w : World) (i : WidgetId) (fn : Widget → Widget) : World :=
  putW w i (fn (getW w i))

/-- Record a synchronous delivery in the log. -/
def pushLog (w : World) (t : WidgetId) (m : Msg) : World :=
  { w with log := w.log ++ [(t, m)] }

/-- Set `_node.parentNode` of a widget (appendChild / removeChild effects). -/
def setNodeParent (w : World) (i : WidgetId) (p : Option DomParent) : World :=
  updW w i (fun s => { s with nodeParent := p })

/-- Modelled from the spec: `Layout.invalidate()` of the external layout
strategy, observable as a mark on the layout object. -/
def layoutInvalidate (w : World) (l : LayoutId) : World :=
  { w with layoutObj := fun j => if j = l then { w.layoutObj j with invalidated := true } else w.layoutObj j }

/-- Modelled from the spec: `Layout.dispose()` of the external layout
strategy — marks it disposed and releases its single-owner parent slot. -/
def layoutDispose (w : World) (l : LayoutId) : World :=
  { w with layoutObj := fun j => if j = l then { w.layoutObj j with disposed := true, parent := none } else w.layoutObj j }

/-- Set the `parent` slot of a layout object (the `layout.parent = this`
write of the layout setter). -/
def layoutSetParent (w : World) (l : LayoutId) (p : Option WidgetId) : World :=
  { w with layoutObj := fun j => if j = l then { w.layoutObj j with parent := p } else w.layoutObj j }

/-- Modelled from the spec: `installMessageFilter(this, layout)`. -/
def installFilter (w : World) (t : WidgetId) (l : LayoutId) : World :=
  { w with filters := fun j => if j = t then w.filters j ++ [l] else w.filters j }

/-- Modelled from the spec: `removeMessageFilter(this, layout)`. -/
def removeFilter (w : World) (t : WidgetId) (l : LayoutId) : World :=
  { w with filters := fun j => if j = t then (w.filters j).erase l else w.filters j }

/-- Modelled from the spec: `clearMessageData(this)` drops all pending posted
messages and all filters associated with a handler. -/
def clearMsgData (w : World) (t : WidgetId) : World :=
  { w with posted := w.posted.filter (fun e => e.1 ≠ t),
           filters := fun j => if j = t then [] else w.filters j }

/-- Widget.compressMessage: a posted `layout-request` is merged into an
already-pending `layout-request`; everything else is never compressed. -/
def compressMessage (m : Msg) (pending : List Msg) : Bool :=
  if m.ty = MsgTy.layoutRequest then
    pending.any (fun other => other.ty = MsgTy.layoutRequest)
  else
    false

/-- The pending posted messages of one handler, in queue order. -/
def pendingFor (w : World) (t : WidgetId) : List Msg :=
  (w.posted.filter (fun e => e.1 = t)).map (fun e => e.2)

/-- Modelled from the spec: `postMessage(handler, msg)` — asks the target's
`compressMessage` whether the new message merges into its pending queue and
enqueues it otherwise. -/
def postMsg (w : World) (t : WidgetId) (m : Msg) : World :=
  if compressMessage m (pendingFor w t) then w
  else { w with posted := w.posted ++ [(t, m)] }

/-- The calls of the mutually recursive synchronous-delivery machinery:
`sendMessage`, `processMessage`, `sendAll`, `sendNonHidden`, the `parent`
setter body, and the body of `detach` past its root check. -/
inductive Call where
  | send (t : WidgetId) (m : Msg)
  | proc (t : WidgetId) (m : Msg)
  | sAll (cs : List WidgetId) (m : Msg)
  | sNH (cs : List WidgetId) (m : Msg)
  | setPar (t : WidgetId) (p : Option WidgetId)
  | detachB (t : WidgetId)

/-- One fuel-indexed interpreter for the mutually recursive synchronous part
of `widget.ts`.  Each branch transliterates the corresponding source method:
`send` is `sendMessage` (log the delivery, run the handler — filters are
pass-through, see the header); `proc` is `Widget.processMessage` together with
the default `on*` handlers it invokes; `sAll`/`sNH` are the free functions
`sendAll`/`sendNonHidden`; `setPar` is the `parent` setter; `detachB` is
`detach()` after the non-root check.  `none` means the fuel ran out. -/
def step : Nat → World → Call → Option World
  | 0, _, _ => none
  | Nat.succ f, w, c =>
    match c with
    | .send t m => step f (pushLog w t m) (.proc t m)
    | .proc t m =>
      match m with
      | .move _ _ _ _ => some w
      | .resize _ _ _ _ => some w
      | .childAdded ch =>
        if (getW w t).isAttachedF then
          (step f w (.send ch .beforeAttach)).bind fun w1 =>
            step f (setNodeParent w1 ch (some (.widgetNode t))) (.send ch .afterAttach)
        else
          some (setNodeParent w ch (some (.widgetNode t)))
      | .childRemoved ch =>
        if (getW w t).isAttachedF then
          (step f w (.send ch .beforeDetach)).bind fun w1 =>
            step f (setNodeParent w1 ch none) (.send ch .afterDetach)
        else
          some (setNodeParent w ch none)
      | .childShown _ => some w
      | .childHidden _ => some w
      | .beforeShow => step f w (.sNH (getW w t).children .beforeShow)
      | .afterShow =>
        let w1 := updW w t (fun s => { s with isVisibleF := true })
        step f w1 (.sNH (getW w1 t).children .afterShow)
      | .beforeHide => step f w (.sNH (getW w t).children .beforeHide)
      | .afterHide =>
        let w1 := updW w t (fun s => { s with isVisibleF := false })
        step f w1 (.sNH (getW w1 t).children .afterHide)
      | .beforeAttach =>
        let w1 := updW w t (fun s => { s with boxSizing := none })
        step f w1 (.sAll (getW w1 t).children .beforeAttach)
      | .afterAttach =>
        let vis := !(getW w t).isHiddenF &&
          (match (getW w t).parent with
           | none => true
           | some p => (getW w p).isVisibleF)
        let w1 := if vis then updW w t (fun s => { s with isVisibleF := true }) else w
        let w2 := updW w1 t (fun s => { s with isAttachedF := true })
        step f w2 (.sAll (getW w2 t).children .afterAttach)
      | .beforeDetach => step f w (.sAll (getW w t).children .beforeDetach)
      | .afterDetach =>
        let w1 := updW w t (fun s => { s with isVisibleF := false, isAttachedF := false })
        step f w1 (.sAll (getW w1 t).children .afterDetach)
      | .parentChanged => some w
      | .layoutChanged => some w
      | .close => step f w (.setPar t none)
      | .layoutRequest => some w
    | .sAll cs m =>
      match cs with
      | [] => some w
      | c0 :: rest =>
        (step f w (.send c0 m)).bind fun w1 => step f w1 (.sAll rest m)
    | .sNH cs m =>
      match cs with
      | [] => some w
      | c0 :: rest =>
        if (getW w c0).isHiddenF then step f w (.sNH rest m)
        else (step f w (.send c0 m)).bind fun w1 => step f w1 (.sNH rest m)
    | .setPar t p =>
      let oldP := (getW w t).parent
      if oldP = p then some w
      else
        (match oldP with
         | some op =>
           let w1 := updW w t (fun s => { s with parent := none })
           let w2 := updW w1 op (fun s => { s with children := s.children.erase t })
           step f w2 (.send op (.childRemoved t))
         | none => some w).bind fun wa =>
        (match p with
         | some np =>
           let w3 := updW wa t (fun s => { s with parent := some np })
           let w4 := updW w3 np (fun s => { s with children := s.children ++ [t] })
           step f w4 (.send np (.childAdded t))
         | none => some wa).bind fun wb =>
        step f wb (.send t .parentChanged)
    | .detachB t =>
      match (getW w t).nodeParent with
      | none => some w
      | some _ =>
        (step f w (.send t .beforeDetach)).bind fun w1 =>
          step f (setNodeParent w1 t none) (.send t .afterDetach)

/-- `core.sendMessage(handler, msg)`: synchronous recursive delivery. -/
def sendMessage (f : Nat) (w : World) (t : WidgetId) (m : Msg) : Option World :=
  step f w (.send t m)

/-- The `parent` setter of `Widget` as a public operation. -/
def setParentOp (f : Nat) (w : World) (t : WidgetId) (p : Option WidgetId) : Option World :=
  step f w (.setPar t p)

/-- `Widget.close()`: send a `close` message to self. -/
def closeOp (f : Nat) (w : World) (t : WidgetId) : Option World :=
  step f w (.send t .close)

/-- `Widget.attach(host)`: throws for a non-root; otherwise brackets the host
insertion with `before-attach` / `after-attach`. -/
def attachOp (f : Nat) (w : World) (t : WidgetId) (h : HostId) : Option (Except WErr World) :=
  if (getW w t).parent.isSome then some (Except.error WErr.nonRootAttach)
  else
    ((step f w (.send t .beforeAttach)).bind fun w1 =>
      step f (setNodeParent w1 t (some (.host h))) (.send t .afterAttach)).map Except.ok

/-- `Widget.detach()`: throws for a non-root; a no-op without a host. -/
def detachOp (f : Nat) (w : World) (t : WidgetId) : Option (Except WErr World) :=
  if (getW w t).parent.isSome then some (Except.error WErr.nonRootDetach)
  else (step f w (.detachB t)).map Except.ok

/-- `Widget.boxSizing()`: memoized box metrics — returns the cache, or
computes from the node's style and caches. -/
def boxSizingOp (w : World) (t : WidgetId) : BoxSizing × World :=
  match (getW w t).boxSizing with
  | some b => (b, w)
  | none =>
    let b := (getW w t).styleBox
    (b, updW w t (fun s => { s with boxSizing := some b }))

/-- The box metrics `boxSizing()` would return in a given state. -/
def boxVal (w : World) (t : WidgetId) : BoxSizing :=
  ((getW w t).boxSizing).getD (getW w t).styleBox

/-- `Widget.updateGeometry(force)`: no-op without a parent or when hidden and
not forced; otherwise invalidate the parent's layout, or post a coalesced
`layout-request` to the parent and recurse (unforced) on the parent. -/
def updateGeometry : Nat → World → WidgetId → Bool → Option World
  | 0, _, _, _ => none
  | Nat.succ f, w, t, force =>
    match (getW w t).parent with
    | none => some w
    | some p =>
      if (getW w t).isHiddenF && !force then some w
      else
        match (getW w p).layout with
        | some l => some (layoutInvalidate w l)
        | none => updateGeometry f (postMsg w p .layoutRequest) p false

/-- `Widget.setGeometry(x, y, width, height)`: clip the size to the box
limits, write only the changed components, then send `move` and/or `resize`
messages reflecting what changed. -/
def setGeometryOp (f : Nat) (w : World) (t : WidgetId) (x y width height : Int) : Option World :=
  let oldX := (getW w t).x
  let oldY := (getW w t).y
  let oldW := (getW w t).width
  let oldH := (getW w t).height
  let bw := boxSizingOp w t
  let box := bw.1
  let w0 := bw.2
  let wc := max box.minWidth (min width box.maxWidth)
  let hc := max box.minHeight (min height box.maxHeight)
  let w1 := if oldX = x then w0 else updW w0 t (fun s => { s with x := x })
  let w2 := if oldY = y then w1 else updW w1 t (fun s => { s with y := y })
  let w3 := if oldW = wc then w2 else updW w2 t (fun s => { s with width := wc })
  let w4 := if oldH = hc then w3 else updW w3 t (fun s => { s with height := hc })
  (if oldX = x ∧ oldY = y then some w4
   else step f w4 (.send t (.move oldX oldY x y))).bind fun w5 =>
  if oldW = wc ∧ oldH = hc then some w5
  else step f w5 (.send t (.resize oldW oldH wc hc))

/-- The `layout` setter of `Widget`: no-op on the same layout; throws while
layout change is disallowed; throws for a layout owned elsewhere; otherwise
swaps the filter/ownership and announces `layout-changed`. -/
def setLayoutOp (f : Nat) (w : World) (t : WidgetId) (l : Option LayoutId) : Option (Except WErr World) :=
  let oldLayout := (getW w t).layout
  if oldLayout = l then some (Except.ok w)
  else if (getW w t).disallowLayoutChange then some (Except.error WErr.layoutChangeDisallowed)
  else if l.any (fun ll => (w.layoutObj ll).parent.isSome) then
    some (Except.error WErr.layoutAlreadyInstalled)
  else
    let w1 := match oldLayout with
      | some oldL =>
        layoutDispose (removeFilter (updW w t (fun s => { s with layout := none })) t oldL) oldL
      | none => w
    let w2 := match l with
      | some newL =>
        layoutSetParent (installFilter (updW w1 t (fun s => { s with layout := some newL })) t newL) newL (some t)
      | none => w1
    (step f w2 (.send t .layoutChanged)).map Except.ok

/-- `Widget.show()`: no-op unless hidden; bracket with `before-show` /
`after-show` when eligible to become visible, else just clear the hidden
marker; notify the parent; request an unforced geometry update. -/
def showOp (f : Nat) (w : World) (t : WidgetId) : Option World :=
  if !(getW w t).isHiddenF then some w
  else
    let parent := (getW w t).parent
    (if (getW w t).isAttachedF &&
        (match parent with | none => true | some p => (getW w p).isVisibleF) then
       (step f w (.send t .beforeShow)).bind fun w1 =>
         let w2 := updW w1 t (fun s => { s with hiddenClass := false, isHiddenF := false })
         step f w2 (.send t .afterShow)
     else
       some (updW w t (fun s => { s with hiddenClass := false, isHiddenF := false }))
    ).bind fun w3 =>
    (match parent with
     | some p => step f w3 (.send p (.childShown t))
     | none => some w3).bind fun w4 =>
    updateGeometry f w4 t false

/-- `Widget.hide()`: no-op when hidden; bracket with `before-hide` /
`after-hide` when currently eligible-visible, else just set the hidden marker;
notify the parent; request a forced geometry update. -/
def hideOp (f : Nat) (w : World) (t : WidgetId) : Option World :=
  if (getW w t).isHiddenF then some w
  else
    let parent := (getW w t).parent
    (if (getW w t).isAttachedF &&
        (match parent with | none => true | some p => (getW w p).isVisibleF) then
       (step f w (.send t .beforeHide)).bind fun w1 =>
         let w2 := updW w1 t (fun s => { s with hiddenClass := true, isHiddenF := true })
         step f w2 (.send t .afterHide)
     else
       some (updW w t (fun s => { s with hiddenClass := true, isHiddenF := true }))
    ).bind fun w3 =>
    (match parent with
     | some p => step f w3 (.send p (.childHidden t))
     | none => some w3).bind fun w4 =>
    updateGeometry f w4 t true

/-- The calls of `Widget.dispose`: one widget, or the child loop. -/
inductive DCall where
  | one (t : WidgetId)
  | many (cs : List WidgetId)

/-- `Widget.dispose()` as a fuel-indexed interpreter.  `one t` transliterates
the method body: clear message data, set the Disposed flag, fire and sever the
disposal signal (no observers are modelled), null-and-dispose the layout,
unlink from the parent (sending `child-removed`) or detach an attached root,
then dispose each child after nulling its parent back-reference, finally empty
the child list and release the node.  The entry of each invocation is recorded
in `disposeLog`. -/
def disposeStep : Nat → World → DCall → Option World
  | 0, _, _ => none
  | Nat.succ f, w, .one t =>
    let wA := { w with disposeLog := w.disposeLog ++ [t] }
    let wB := clearMsgData wA t
    let wC := updW wB t (fun s => { s with isDisposedF := true })
    let wE := match (getW wC t).layout with
      | some l => layoutDispose (updW wC t (fun s => { s with layout := none })) l
      | none => wC
    (match (getW wE t).parent with
     | some p =>
       let w1 := updW wE t (fun s => { s with parent := none })
       let w2 := updW w1 p (fun s => { s with children := s.children.erase t })
       step f w2 (.send p (.childRemoved t))
     | none =>
       if (getW wE t).isAttachedF then step f wE (.detachB t) else some wE
    ).bind fun w5 =>
    (disposeStep f w5 (.many (getW w5 t).children)).bind fun w6 =>
    some (updW w6 t (fun s => { s with children := [], nodeAlive := false }))
  | Nat.succ _, w, .many [] => some w
  | Nat.succ f, w, .many (c0 :: cs) =>
    let w1 := updW w c0 (fun s => { s with parent := none })
    (disposeStep f w1 (.one c0)).bind fun w2 => disposeStep f w2 (.many cs)

/-- `Widget.dispose()` as a public operation. -/
def disposeOp (f : Nat) (w : World) (t : WidgetId) : Option World :=
  disposeStep f w (.one t)

/-- The §3 visibility invariant at one widget: `Visible` implies attached,
not hidden, and a parent that is absent or itself visible. -/
def visInvariantAt (w : World) (i : WidgetId) : Bool :=
  !(getW w i).isVisibleF ||
    ((getW w i).isAttachedF && !(getW w i).isHiddenF &&
      (match (getW w i).parent with
       | none => true
       | some p => (getW w p).isVisibleF))

/-- The widget state with the volatile attach-fan fields blanked: the
before/after attach/detach handlers only ever write `isVisibleF`,
`isAttachedF` and `boxSizing`, so they leave `core` untouched at every
widget. -/
def Widget.core (s : Widget) : Widget :=
  { s with isVisibleF := false, isAttachedF := false, boxSizing := none }

/-- Calls of the step machine that belong to the attach-family fan-out
(`before-attach` / `after-attach` deliveries). -/
def attCall : Call → Prop
  | .send _ m => m = Msg.beforeAttach ∨ m = Msg.afterAttach
  | .proc _ m => m = Msg.beforeAttach ∨ m = Msg.afterAttach
  | .sAll _ m => m = Msg.beforeAttach ∨ m = Msg.afterAttach
  | _ => False

/-- Calls of the step machine that belong to the detach-family fan-out
(`before-detach` / `after-detach` deliveries). -/
def detCall : Call → Prop
  | .send _ m => m = Msg.beforeDetach ∨ m = Msg.afterDetach
  | .proc _ m => m = Msg.beforeDetach ∨ m = Msg.afterDetach
  | .sAll _ m => m = Msg.beforeDetach ∨ m = Msg.afterDetach
  | _ => False

/-- Calls whose runs never change any widget's tree-structure fields: the
detach-family fan-out together with the `detach` body itself, which only ever
write the Visible/Attached flags and the target's node parent. -/
def dPres : Call → Prop
  | .send _ m => m = Msg.beforeDetach ∨ m = Msg.afterDetach
  | .proc _ m => m = Msg.beforeDetach ∨ m = Msg.afterDetach
  | .sAll _ m => m = Msg.beforeDetach ∨ m = Msg.afterDetach
  | .detachB _ => True
  | _ => False

/-- Agreement of two widget states on the tree-structure fields the disposal
claim talks about: child list, parent link, layout, Disposed flag and node
liveness. -/
def structEq (a b : Widget) : Prop :=
  a.children = b.children ∧ a.parent = b.parent ∧ a.layout = b.layout ∧
  a.isDisposedF = b.isDisposedF ∧ a.nodeAlive = b.nodeAlive

/-- The state `dispose` is claimed to leave at each node of the tree:
Disposed flag set, node released, layout null, child list empty, parent
null. -/
def disposedState (w : World) (n : WidgetId) : Prop :=
  (getW w n).isDisposedF = true ∧ (getW w n).nodeAlive = false ∧
  (getW w n).layout = none ∧ (getW w n).children = [] ∧
  (getW w n).parent = none

/-- A widget tree shape: a root id together with the shapes of its children,
used to state the disposal claim over arbitrary trees. -/
inductive WTree : Type where
  | node : WidgetId → List WTree → WTree

/-- The root id of a tree. -/
def WTree.root : WTree → WidgetId
  | .node i _ => i

mutual
/-- Number of nodes of a tree. -/
def WTree.size : WTree → Nat
  | .node _ kids => WTree.sizeList kids + 1
/-- Number of nodes of a forest. -/
def WTree.sizeList : List WTree → Nat
  | [] => 0
  | t :: ts => t.size + WTree.sizeList ts
end

mutual
/-- The ids of a tree in preorder (root first, then each child subtree). -/
def WTree.ids : WTree → List WidgetId
  | .node i kids => i :: WTree.idsList kids
/-- The ids of a forest in preorder. -/
def WTree.idsList : List WTree → List WidgetId
  | [] => []
  | t :: ts => t.ids ++ WTree.idsList ts
end

mutual
/-- The tree shape is realized in a world: every node's stored child list is
exactly the roots of its child shapes, and every child's parent back-reference
points at its tree parent. -/
def realizes (w : World) : WTree → Bool
  | .node i kids =>
    decide ((getW w i).children = kids.map WTree.root) &&
    kids.all (fun k => decide ((getW w k.root).parent = some i)) &&
    allRealize w kids
/-- All shapes of a forest are realized. -/
def allRealize (w : World) : List WTree → Bool
  | [] => true
  | k :: ks => realizes w k && allRealize w ks
end

/-- An ancestor chain: `Climb w a l` says the successive parents of `a` are
exactly the elements of `l`, in order. -/
def Climb (w : World) : WidgetId → List WidgetId → Prop
  | _, [] => True
  | a, b :: rest => (getW w a).parent = some b ∧ Climb w b rest

/-- Post a coalescible `layout-request` to each listed widget, in order. -/
def postList (w : World) : List WidgetId → World
  | [] => w
  | m :: ms => postList (postMsg w m Msg.layoutRequest) ms

/-- How many pending messages of a list are `layout-request`s. -/
def countLR (l : List Msg) : Nat :=
  (l.filter (fun m => m.ty = MsgTy.layoutRequest)).length

/-- Post `n` `layout-request` messages to the same widget. -/
def postLRn : Nat → World → WidgetId → World
  | 0, w, _ => w
  | n + 1, w, t => postLRn n (postMsg w t Msg.layoutRequest) t

/-- Modelled from the spec: the dispatcher delivering a list of queued
messages, in order. -/
def deliverList (f : Nat) : World → List (WidgetId × Msg) → Option World
  | w, [] => some w
  | w, (t, m) :: rest => (sendMessage f w t m).bind fun w1 => deliverList f w1 rest

/-- Modelled from the spec: draining the dispatcher's queue — the pending
list is taken and each entry is delivered once. -/
def drainOp (f : Nat) (w : World) : Option World :=
  deliverList f { w with posted := [] } w.posted

/-- A heap of JavaScript arrays, used to model the aliasing behaviour of
`Widget.children()` (`return this._children.slice()`): `arr` maps array ids
to contents, `nextArr` is the allocation counter, `childrenRef` is the id of
the widget's private `_children` array. -/
structure ArrWorld where
  arr : Nat → List WidgetId
  nextArr : Nat
  childrenRef : Nat

/-- `Widget.children()`: allocate a fresh array holding a copy of the
`_children` contents and return its id. -/
def childrenOp (s : ArrWorld) : Nat × ArrWorld :=
  (s.nextArr,
   { s with arr := fun j => if j = s.nextArr then s.arr s.childrenRef else s.arr j,
            nextArr := s.nextArr + 1 })

/-- Mutate the array stored at an id (any caller-side mutation of the array
returned by `children()`). -/
def writeArr (s : ArrWorld) (i : Nat) (g : List WidgetId → List WidgetId) : ArrWorld :=
  { s with arr := fun j => if j = i then g (s.arr j) else s.arr j }

/-- A world with only freshly constructed widgets and layouts. -/
def baseWorld : World :=
  { widget := fun _ => Widget.init, layoutObj := fun _ => LayoutObj.init,
    filters := fun _ => [], posted := [], log := [], disposeLog := [] }

/-- The C1 failing input, step 1: widget 0 is a fresh root attached to a
host, so it is attached and visible; widget 1 is a fresh detached widget. -/
def c1Attached : Option World :=
  match attachOp 10 baseWorld 0 0 with
  | some (Except.ok w1) => some w1
  | _ => none

/-- The C1 failing input, step 2: the attached visible root 0 is given the
detached widget 1 as its parent. -/
def c1Run : Option World :=
  match c1Attached with
  | some w1 => setParentOp 10 w1 0 (some 1)
  | none => none

/-- The world at the end of the C1 failing run. -/
def c1Out : World := c1Run.getD baseWorld

/-- Check of the C1 violation: after the reparenting, widget 0 still has its
Visible flag set, its parent is widget 1, widget 1 is not visible, and the
§3 visibility invariant fails at widget 0. -/
def c1Check : Bool :=
  match c1Run with
  | some w2 =>
    (getW w2 0).isVisibleF && decide ((getW w2 0).parent = some 1) &&
    !(getW w2 1).isVisibleF && !visInvariantAt w2 0
  | none => false

/-- The C6 counterexample world: widget 0's parent is widget 1; widget 1 is
hidden, has no layout, and its parent is widget 2; widget 2 owns layout 0. -/
def c6World : World :=
  { baseWorld with
    widget := fun i =>
      if i = 0 then { Widget.init with parent := some 1 }
      else if i = 1 then { Widget.init with parent := some 2, isHiddenF := true, children := [0] }
      else if i = 2 then { Widget.init with layout := some 0, children := [1] }
      else Widget.init,
    layoutObj := fun j =>
      if j = 0 then { LayoutObj.init with parent := some 2 } else LayoutObj.init }

/-- The world the C6 counterexample run produces: a single `layout-request`
posted to the hidden ancestor, and no layout invalidated. -/
def c6Result : World :=
  { c6World with posted := [(1, Msg.layoutRequest)] }

/-- Concrete tree for the disposal claim: root 10 with children 11 and 12,
and 12 has one child 13. -/
def c2Tree : WTree :=
  WTree.node 10 [WTree.node 11 [], WTree.node 12 [WTree.node 13 []]]

/-- A world realizing `c2Tree`, with a layout on node 12 and the root
attached (so disposal exercises the detach and layout paths). -/
def c2World : World :=
  { baseWorld with
    widget := fun i =>
      if i = 10 then { Widget.init with
        children := [11, 12], isAttachedF := true,
        isVisibleF := true, nodeParent := some (DomParent.host 0) }
      else if i = 11 then { Widget.init with
        parent := some 10, isAttachedF := true,
        nodeParent := some (DomParent.widgetNode 10) }
      else if i = 12 then { Widget.init with
        parent := some 10, children := [13],
        layout := some 2, isAttachedF := true,
        nodeParent := some (DomParent.widgetNode 10) }
      else if i = 13 then { Widget.init with
        parent := some 12, isAttachedF := true,
        nodeParent := some (DomParent.widgetNode 12) }
      else Widget.init,
    layoutObj := fun j =>
      if j = 2 then { LayoutObj.init with parent := some 12 } else LayoutObj.init,
    filters := fun j => if j = 12 then [2] else [] }

/-- The world produced by disposing the root of `c2World`. -/
def c2Out : World := (disposeOp 50 c2World 10).getD baseWorld

/-- Concrete world for the geometry claim: widget 0 has geometry (1, 2, 5, 5)
and style limits clamping sizes into [3, 10]. -/
def c3World : World :=
  { baseWorld with
    widget := fun i =>
      if i = 0 then
        { Widget.init with
          x := 1, y := 2, width := 5, height := 5,
          styleBox := { BoxSizing.free with
            minWidth := 3, minHeight := 3,
            maxWidth := 10, maxHeight := 10 } }
      else Widget.init }

/-- The world after the first concrete `setGeometry` call on `c3World`. -/
def c3Out : World := (setGeometryOp 10 c3World 0 1 2 20 5).getD baseWorld

/-- The world after a second, identical `setGeometry` call on `c3Out`. -/
def c3Out2 : World := (setGeometryOp 10 c3Out 0 1 2 20 5).getD baseWorld

/-- Concrete world for the reparenting claim: widget 0's parent is widget 1,
widget 2 is a detached prospective parent. -/
def c4World : World :=
  { baseWorld with
    widget := fun i =>
      if i = 0 then { Widget.init with parent := some 1 }
      else if i = 1 then { Widget.init with children := [0] }
      else Widget.init }

/-- The world after reparenting widget 0 from widget 1 to widget 2. -/
def c4Out : World := (setParentOp 10 c4World 0 (some 2)).getD baseWorld

/-- Concrete world for the attach claim: widget 0 is a hidden root with two
children, one of them (widget 1) itself hidden and holding a cached box;
widget 3 is a non-root (child of 4) for the failure conjunct. -/
def c5World : World :=
  { baseWorld with
    widget := fun i =>
      if i = 0 then { Widget.init with
        isHiddenF := true, hiddenClass := true,
        children := [1, 2] }
      else if i = 1 then { Widget.init with
        parent := some 0, isHiddenF := true,
        hiddenClass := true, boxSizing := some BoxSizing.free }
      else if i = 2 then { Widget.init with parent := some 0 }
      else if i = 3 then { Widget.init with parent := some 4 }
      else if i = 4 then { Widget.init with children := [3] }
      else Widget.init }

/-- The world produced by attaching the hidden root of `c5World`. -/
def c5Out : World :=
  match attachOp 50 c5World 0 7 with
  | some (Except.ok w) => w
  | _ => baseWorld

/-- A chain world for the amended bubbling claim: widget 0 under widget 1
(layout-less, not hidden) under widget 2, which owns layout 0. -/
def c6bWorld : World :=
  { baseWorld with
    widget := fun i =>
      if i = 0 then { Widget.init with parent := some 1 }
      else if i = 1 then { Widget.init with parent := some 2, children := [0] }
      else if i = 2 then { Widget.init with layout := some 0, children := [1] }
      else Widget.init,
    layoutObj := fun j =>
      if j = 0 then { LayoutObj.init with parent := some 2 } else LayoutObj.init }

/-- The world produced by the absorbed bubbling run on `c6bWorld`. -/
def c6bOut : World := (updateGeometry 10 c6bWorld 0 false).getD baseWorld

/-- A world for the hide-forces-update conjunct: widget 5 (not hidden, not
attached) has parent 6, and 6 owns layout 1. -/
def c6cWorld : World :=
  { baseWorld with
    widget := fun i =>
      if i = 5 then { Widget.init with parent := some 6 }
      else if i = 6 then { Widget.init with layout := some 1, children := [5] }
      else Widget.init,
    layoutObj := fun j =>
      if j = 1 then { LayoutObj.init with parent := some 6 } else LayoutObj.init }

/-- The world after hiding widget 5 of `c6cWorld`. -/
def c6cOut : World := (hideOp 50 c6cWorld 5).getD baseWorld

/-- Concrete world for the layout-setter claims: widget 0 disallows layout
change; widget 1 is offered layout 7 which is already owned by widget 9;
widget 2 owns layout 3 (installed as its filter) and will receive layout 4. -/
def c7World : World :=
  { baseWorld with
    widget := fun i =>
      if i = 0 then { Widget.init with disallowLayoutChange := true }
      else if i = 2 then { Widget.init with layout := some 3 }
      else Widget.init,
    layoutObj := fun j =>
      if j = 7 then { LayoutObj.init with parent := some 9 }
      else if j = 3 then { LayoutObj.init with parent := some 2 }
      else LayoutObj.init,
    filters := fun j => if j = 2 then [3] else [] }

/-- The world after successfully giving widget 2 of `c7World` layout 4. -/
def c7Out : World :=
  match setLayoutOp 10 c7World 2 (some 4) with
  | some (Except.ok w) => w
  | _ => baseWorld

/-- The world after posting three `layout-request`s to widget 0 of the fresh
world and draining the queue. -/
def c8Out : World := (drainOp 10 (postLRn 3 baseWorld 0)).getD baseWorld

/-- Concrete array heap for the children-copy claim: the widget's `_children`
array is array 0 holding [5, 6], and one array has been allocated so far. -/
def c10Arr : ArrWorld :=
  { arr := fun j => if j = 0 then [5, 6] else [], nextArr := 1, childrenRef := 0 }

/-- Messages whose `processMessage` branch neither mutates state nor sends
further messages: the `move`/`resize`/`child-shown`/`child-hidden` defaults
are no-ops, and `parent-changed`, `layout-changed` and `layout-request` fall
through the switch (`layout-request` is handled by subclasses only). -/
def trivMsg : Msg → Bool
  | .move _ _ _ _ => true
  | .resize _ _ _ _ => true
  | .childShown _ => true
  | .childHidden _ => true
  | .parentChanged => true
  | .layoutChanged => true
  | .layoutRequest => true
  | _ => false

theorem getW_putW (w : World) (i j : WidgetId) (x : Widget) :
    getW (putW w i x) j = if j = i then x else getW w j := rfl

theorem getW_updW (w : World) (i j : WidgetId) (fn : Widget → Widget) :
    getW (updW w i fn) j = if j = i then fn (getW w i) else getW w j := rfl

theorem getW_updW_self (w : World) (i : WidgetId) (fn : Widget → Widget) :
    getW (updW w i fn) i = fn (getW w i) := by simp [getW_updW]

theorem getW_updW_ne (w : World) (i j : WidgetId) (fn : Widget → Widget) (h : j ≠ i) :
    getW (updW w i fn) j = getW w j := by simp [getW_updW, h]

theorem putW_getW_self (w : World) (i : WidgetId) : putW w i (getW w i) = w := by
  unfold putW
  cases w with
  | mk wid lo fi po lg dl =>
    simp only [World.mk.injEq, and_true, true_and]
    funext j
    by_cases h : j = i <;> simp [getW, h]

@[simp] theorem updW_log (w : World) (i : WidgetId) (fn : Widget → Widget) :
    (updW w i fn).log = w.log := rfl

@[simp] theorem updW_posted (w : World) (i : WidgetId) (fn : Widget → Widget) :
    (updW w i fn).posted = w.posted := rfl

@[simp] theorem updW_layoutObj (w : World) (i : WidgetId) (fn : Widget → Widget) :
    (updW w i fn).layoutObj = w.layoutObj := rfl

@[simp] theorem updW_filters (w : World) (i : WidgetId) (fn : Widget → Widget) :
    (updW w i fn).filters = w.filters := rfl

@[simp] theorem updW_disposeLog (w : World) (i : WidgetId) (fn : Widget → Widget) :
    (updW w i fn).disposeLog = w.disposeLog := rfl

@[simp] theorem pushLog_getW (w : World) (t : WidgetId) (m : Msg) (j : WidgetId) :
    getW (pushLog w t m) j = getW w j := rfl

@[simp] theorem pushLog_log (w : World) (t : WidgetId) (m : Msg) :
    (pushLog w t m).log = w.log ++ [(t, m)] := rfl

@[simp] theorem pushLog_posted (w : World) (t : WidgetId) (m : Msg) :
    (pushLog w t m).posted = w.posted := rfl

@[simp] theorem pushLog_layoutObj (w : World) (t : WidgetId) (m : Msg) :
    (pushLog w t m).layoutObj = w.layoutObj := rfl

@[simp] theorem pushLog_filters (w : World) (t : WidgetId) (m : Msg) :
    (pushLog w t m).filters = w.filters := rfl

@[simp] theorem pushLog_disposeLog (w : World) (t : WidgetId) (m : Msg) :
    (pushLog w t m).disposeLog = w.disposeLog := rfl

@[simp] theorem postMsg_getW (w : World) (t : WidgetId) (m : Msg) (j : WidgetId) :
    getW (postMsg w t m) j = getW w j := by
  unfold postMsg; split <;> rfl

@[simp] theorem postMsg_log (w : World) (t : WidgetId) (m : Msg) :
    (postMsg w t m).log = w.log := by
  unfold postMsg; split <;> rfl

@[simp] theorem postMsg_layoutObj (w : World) (t : WidgetId) (m : Msg) :
    (postMsg w t m).layoutObj = w.layoutObj := by
  unfold postMsg; split <;> rfl

@[simp] theorem postMsg_disposeLog (w : World) (t : WidgetId) (m : Msg) :
    (postMsg w t m).disposeLog = w.disposeLog := by
  unfold postMsg; split <;> rfl

@[simp] theorem layoutInvalidate_getW (w : World) (l : LayoutId) (j : WidgetId) :
    getW (layoutInvalidate w l) j = getW w j := rfl

@[simp] theorem layoutInvalidate_log (w : World) (l : LayoutId) :
    (layoutInvalidate w l).log = w.log := rfl

@[simp] theorem layoutDispose_getW (w : World) (l : LayoutId) (j : WidgetId) :
    getW (layoutDispose w l) j = getW w j := rfl

@[simp] theorem layoutSetParent_getW (w : World) (l : LayoutId) (p : Option WidgetId) (j : WidgetId) :
    getW (layoutSetParent w l p) j = getW w j := rfl

@[simp] theorem installFilter_getW (w : World) (t : WidgetId) (l : LayoutId) (j : WidgetId) :
    getW (installFilter w t l) j = getW w j := rfl

@[simp] theorem removeFilter_getW (w : World) (t : WidgetId) (l : LayoutId) (j : WidgetId) :
    getW (removeFilter w t l) j = getW w j := rfl

@[simp] theorem clearMsgData_getW (w : World) (t : WidgetId) (j : WidgetId) :
    getW (clearMsgData w t) j = getW w j := rfl

@[simp] theorem clearMsgData_disposeLog (w : World) (t : WidgetId) :
    (clearMsgData w t).disposeLog = w.disposeLog := rfl

@[simp] theorem setNodeParent_log (w : World) (i : WidgetId) (p : Option DomParent) :
    (setNodeParent w i p).log = w.log := rfl

theorem step_zero (w : World) (c : Call) : step 0 w c = none := rfl

theorem step_send (f : Nat) (w : World) (t : WidgetId) (m : Msg) :
    step (f + 1) w (.send t m) = step f (pushLog w t m) (.proc t m) := rfl

theorem step_sAll_nil (f : Nat) (w : World) (m : Msg) :
    step (f + 1) w (.sAll [] m) = some w := rfl

theorem step_sAll_cons (f : Nat) (w : World) (c0 : WidgetId) (cs : List WidgetId) (m : Msg) :
    step (f + 1) w (.sAll (c0 :: cs) m) =
      (step f w (.send c0 m)).bind fun w1 => step f w1 (.sAll cs m) := rfl

theorem step_sNH_nil (f : Nat) (w : World) (m : Msg) :
    step (f + 1) w (.sNH [] m) = some w := rfl

theorem step_sNH_cons (f : Nat) (w : World) (c0 : WidgetId) (cs : List WidgetId) (m : Msg) :
    step (f + 1) w (.sNH (c0 :: cs) m) =
      if (getW w c0).isHiddenF then step f w (.sNH cs m)
      else (step f w (.send c0 m)).bind fun w1 => step f w1 (.sNH cs m) := rfl

theorem step_proc_move (f : Nat) (w : World) (t : WidgetId) (a b c d : Int) :
    step (f + 1) w (.proc t (.move a b c d)) = some w := rfl

theorem step_proc_resize (f : Nat) (w : World) (t : WidgetId) (a b c d : Int) :
    step (f + 1) w (.proc t (.resize a b c d)) = some w := rfl

theorem step_proc_childAdded (f : Nat) (w : World) (t ch : WidgetId) :
    step (f + 1) w (.proc t (.childAdded ch)) =
      if (getW w t).isAttachedF then
        (step f w (.send ch .beforeAttach)).bind fun w1 =>
          step f (setNodeParent w1 ch (some (.widgetNode t))) (.send ch .afterAttach)
      else some (setNodeParent w ch (some (.widgetNode t))) := rfl

theorem step_proc_childRemoved (f : Nat) (w : World) (t ch : WidgetId) :
    step (f + 1) w (.proc t (.childRemoved ch)) =
      if (getW w t).isAttachedF then
        (step f w (.send ch .beforeDetach)).bind fun w1 =>
          step f (setNodeParent w1 ch none) (.send ch .afterDetach)
      else some (setNodeParent w ch none) := rfl

theorem step_proc_childShown (f : Nat) (w : World) (t ch : WidgetId) :
    step (f + 1) w (.proc t (.childShown ch)) = some w := rfl

theorem step_proc_childHidden (f : Nat) (w : World) (t ch : WidgetId) :
    step (f + 1) w (.proc t (.childHidden ch)) = some w := rfl

theorem step_proc_beforeShow (f : Nat) (w : World) (t : WidgetId) :
    step (f + 1) w (.proc t .beforeShow) = step f w (.sNH (getW w t).children .beforeShow) := rfl

theorem step_proc_afterShow (f : Nat) (w : World) (t : WidgetId) :
    step (f + 1) w (.proc t .afterShow) =
      step f (updW w t (fun s => { s with isVisibleF := true }))
        (.sNH (getW (updW w t (fun s => { s with isVisibleF := true })) t).children .afterShow) := rfl

theorem step_proc_beforeHide (f : Nat) (w : World) (t : WidgetId) :
    step (f + 1) w (.proc t .beforeHide) = step f w (.sNH (getW w t).children .beforeHide) := rfl

theorem step_proc_afterHide (f : Nat) (w : World) (t : WidgetId) :
    step (f + 1) w (.proc t .afterHide) =
      step f (updW w t (fun s => { s with isVisibleF := false }))
        (.sNH (getW (updW w t (fun s => { s with isVisibleF := false })) t).children .afterHide) := rfl

theorem step_proc_beforeAttach (f : Nat) (w : World) (t : WidgetId) :
    step (f + 1) w (.proc t .beforeAttach) =
      step f (updW w t (fun s => { s with boxSizing := none }))
        (.sAll (getW (updW w t (fun s => { s with boxSizing := none })) t).children .beforeAttach) := rfl

theorem step_proc_afterAttach (f : Nat) (w : World) (t : WidgetId) :
    step (f + 1) w (.proc t .afterAttach) =
      (let vis := !(getW w t).isHiddenF &&
        (match (getW w t).parent with
         | none => true
         | some p => (getW w p).isVisibleF)
       let w1 := if vis then updW w t (fun s => { s with isVisibleF := true }) else w
       let w2 := updW w1 t (fun s => { s with isAttachedF := true })
       step f w2 (.sAll (getW w2 t).children .afterAttach)) := rfl

theorem step_proc_beforeDetach (f : Nat) (w : World) (t : WidgetId) :
    step (f + 1) w (.proc t .beforeDetach) = step f w (.sAll (getW w t).children .beforeDetach) := rfl

theorem step_proc_afterDetach (f : Nat) (w : World) (t : WidgetId) :
    step (f + 1) w (.proc t .afterDetach) =
      step f (updW w t (fun s => { s with isVisibleF := false, isAttachedF := false }))
        (.sAll (getW (updW w t (fun s => { s with isVisibleF := false, isAttachedF := false })) t).children .afterDetach) := rfl

theorem step_proc_parentChanged (f : Nat) (w : World) (t : WidgetId) :
    step (f + 1) w (.proc t .parentChanged) = some w := rfl

theorem step_proc_layoutChanged (f : Nat) (w : World) (t : WidgetId) :
    step (f + 1) w (.proc t .layoutChanged) = some w := rfl

theorem step_proc_layoutRequest (f : Nat) (w : World) (t : WidgetId) :
    step (f + 1) w (.proc t .layoutRequest) = some w := rfl

theorem step_proc_close (f : Nat) (w : World) (t : WidgetId) :
    step (f + 1) w (.proc t .close) = step f w (.setPar t none) := rfl

theorem step_setPar (f : Nat) (w : World) (t : WidgetId) (p : Option WidgetId) :
    step (f + 1) w (.setPar t p) =
      (if (getW w t).parent = p then some w
       else
        (match (getW w t).parent with
         | some op =>
           step f (updW (updW w t (fun s => { s with parent := none })) op
             (fun s => { s with children := s.children.erase t })) (.send op (.childRemoved t))
         | none => some w).bind fun wa =>
        (match p with
         | some np =>
           step f (updW (updW wa t (fun s => { s with parent := some np })) np
             (fun s => { s with children := s.children ++ [t] })) (.send np (.childAdded t))
         | none => some wa).bind fun wb =>
        step f wb (.send t .parentChanged)) := rfl

theorem step_detachB (f : Nat) (w : World) (t : WidgetId) :
    step (f + 1) w (.detachB t) =
      (match (getW w t).nodeParent with
       | none => some w
       | some _ =>
         (step f w (.send t .beforeDetach)).bind fun w1 =>
           step f (setNodeParent w1 t none) (.send t .afterDetach)) := rfl

theorem log_app_trans {w w1 w2 : World} {e1 e2 : List (WidgetId × Msg)}
    (h1 : w1.log = w.log ++ e1) (h2 : w2.log = w1.log ++ e2) :
    w2.log = w.log ++ (e1 ++ e2) := by rw [h2, h1, List.append_assoc]

/-- Every run of the synchronous machinery only appends to the delivery log. -/
theorem step_log_mono : ∀ f w c w', step f w c = some w' → ∃ e, w'.log = w.log ++ e := by
  intro f
  induction f with
  | zero => intro w c w' h; rw [step_zero] at h; exact absurd h (by simp)
  | succ f ih =>
    intro w c w' h
    cases c with
    | send t m =>
      rw [step_send] at h
      obtain ⟨e, he⟩ := ih _ _ _ h
      exact ⟨[(t, m)] ++ e, by rw [he, pushLog_log, List.append_assoc]⟩
    | proc t m =>
      cases m with
      | move a b c d =>
        rw [step_proc_move] at h; obtain rfl := Option.some.inj h; exact ⟨[], by simp⟩
      | resize a b c d =>
        rw [step_proc_resize] at h; obtain rfl := Option.some.inj h; exact ⟨[], by simp⟩
      | childAdded ch =>
        rw [step_proc_childAdded] at h
        split at h
        · rw [Option.bind_eq_some] at h
          obtain ⟨w1, h1, h2⟩ := h
          obtain ⟨e1, he1⟩ := ih _ _ _ h1
          obtain ⟨e2, he2⟩ := ih _ _ _ h2
          refine ⟨e1 ++ e2, ?_⟩
          rw [he2, setNodeParent_log, he1, List.append_assoc]
        · obtain rfl := Option.some.inj h; exact ⟨[], by simp [setNodeParent]⟩
      | childRemoved ch =>
        rw [step_proc_childRemoved] at h
        split at h
        · rw [Option.bind_eq_some] at h
          obtain ⟨w1, h1, h2⟩ := h
          obtain ⟨e1, he1⟩ := ih _ _ _ h1
          obtain ⟨e2, he2⟩ := ih _ _ _ h2
          refine ⟨e1 ++ e2, ?_⟩
          rw [he2, setNodeParent_log, he1, List.append_assoc]
        · obtain rfl := Option.some.inj h; exact ⟨[], by simp [setNodeParent]⟩
      | childShown ch =>
        rw [step_proc_childShown] at h; obtain rfl := Option.some.inj h; exact ⟨[], by simp⟩
      | childHidden ch =>
        rw [step_proc_childHidden] at h; obtain rfl := Option.some.inj h; exact ⟨[], by simp⟩
      | beforeShow =>
        rw [step_proc_beforeShow] at h
        exact ih _ _ _ h
      | afterShow =>
        rw [step_proc_afterShow] at h
        obtain ⟨e, he⟩ := ih _ _ _ h
        exact ⟨e, by rw [he, updW_log]⟩
      | beforeHide =>
        rw [step_proc_beforeHide] at h
        exact ih _ _ _ h
      | afterHide =>
        rw [step_proc_afterHide] at h
        obtain ⟨e, he⟩ := ih _ _ _ h
        exact ⟨e, by rw [he, updW_log]⟩
      | beforeAttach =>
        rw [step_proc_beforeAttach] at h
        obtain ⟨e, he⟩ := ih _ _ _ h
        exact ⟨e, by rw [he, updW_log]⟩
      | afterAttach =>
        rw [step_proc_afterAttach] at h
        obtain ⟨e, he⟩ := ih _ _ _ h
        refine ⟨e, ?_⟩
        rw [he, updW_log]
        split <;> simp
      | beforeDetach =>
        rw [step_proc_beforeDetach] at h
        exact ih _ _ _ h
      | afterDetach =>
        rw [step_proc_afterDetach] at h
        obtain ⟨e, he⟩ := ih _ _ _ h
        exact ⟨e, by rw [he, updW_log]⟩
      | parentChanged =>
        rw [step_proc_parentChanged] at h; obtain rfl := Option.some.inj h; exact ⟨[], by simp⟩
      | layoutChanged =>
        rw [step_proc_layoutChanged] at h; obtain rfl := Option.some.inj h; exact ⟨[], by simp⟩
      | close =>
        rw [step_proc_close] at h
        exact ih _ _ _ h
      | layoutRequest =>
        rw [step_proc_layoutRequest] at h; obtain rfl := Option.some.inj h; exact ⟨[], by simp⟩
    | sAll cs m =>
      cases cs with
      | nil =>
        rw [step_sAll_nil] at h; obtain rfl := Option.some.inj h; exact ⟨[], by simp⟩
      | cons c0 rest =>
        rw [step_sAll_cons, Option.bind_eq_some] at h
        obtain ⟨w1, h1, h2⟩ := h
        obtain ⟨e1, he1⟩ := ih _ _ _ h1
        obtain ⟨e2, he2⟩ := ih _ _ _ h2
        exact ⟨e1 ++ e2, log_app_trans he1 he2⟩
    | sNH cs m =>
      cases cs with
      | nil =>
        rw [step_sNH_nil] at h; obtain rfl := Option.some.inj h; exact ⟨[], by simp⟩
      | cons c0 rest =>
        rw [step_sNH_cons] at h
        split at h
        · exact ih _ _ _ h
        · rw [Option.bind_eq_some] at h
          obtain ⟨w1, h1, h2⟩ := h
          obtain ⟨e1, he1⟩ := ih _ _ _ h1
          obtain ⟨e2, he2⟩ := ih _ _ _ h2
          exact ⟨e1 ++ e2, log_app_trans he1 he2⟩
    | setPar t p =>
      rw [step_setPar] at h
      split at h
      · obtain rfl := Option.some.inj h; exact ⟨[], by simp⟩
      · rw [Option.bind_eq_some] at h
        obtain ⟨wa, ha, h⟩ := h
        rw [Option.bind_eq_some] at h
        obtain ⟨wb, hb, h⟩ := h
        have hea : ∃ e, wa.log = w.log ++ e := by
          rcases hm : (getW w t).parent with _ | op
          · rw [hm] at ha; obtain rfl := Option.some.inj ha; exact ⟨[], by simp⟩
          · rw [hm] at ha
            obtain ⟨e, he⟩ := ih _ _ _ ha
            exact ⟨e, by rw [he, updW_log, updW_log]⟩
        obtain ⟨ea, hea⟩ := hea
        have heb : ∃ e, wb.log = wa.log ++ e := by
          rcases p with _ | np
          · obtain rfl := Option.some.inj hb; exact ⟨[], by simp⟩
          · obtain ⟨e, he⟩ := ih _ _ _ hb
            exact ⟨e, by rw [he, updW_log, updW_log]⟩
        obtain ⟨eb, heb⟩ := heb
        obtain ⟨ec, hec⟩ := ih _ _ _ h
        exact ⟨ea ++ eb ++ ec, log_app_trans (log_app_trans hea heb) hec⟩
    | detachB t =>
      rw [step_detachB] at h
      rcases hm : (getW w t).nodeParent with _ | q
      · rw [hm] at h; obtain rfl := Option.some.inj h; exact ⟨[], by simp⟩
      · rw [hm] at h
        rw [Option.bind_eq_some] at h
        obtain ⟨w1, h1, h2⟩ := h
        obtain ⟨e1, he1⟩ := ih _ _ _ h1
        obtain ⟨e2, he2⟩ := ih _ _ _ h2
        refine ⟨e1 ++ e2, ?_⟩
        rw [he2, setNodeParent_log, he1, List.append_assoc]

theorem countLR_append (a b : List Msg) : countLR (a ++ b) = countLR a + countLR b := by
  simp [countLR, List.filter_append]

theorem pendingFor_posted_append (w : World) (t : WidgetId) (m : Msg) :
    pendingFor { w with posted := w.posted ++ [(t, m)] } t = pendingFor w t ++ [m] := by
  simp [pendingFor, List.filter_append]

theorem compress_lr (pending : List Msg) :
    compressMessage Msg.layoutRequest pending =
      pending.any (fun o => o.ty = MsgTy.layoutRequest) := by
  simp [compressMessage, Msg.ty]

theorem countLR_postLR (w : World) (t : WidgetId)
    (h : countLR (pendingFor w t) ≤ 1) :
    countLR (pendingFor (postMsg w t Msg.layoutRequest) t) ≤ 1 := by
  unfold postMsg
  split
  · exact h
  · next hc =>
    rw [compress_lr, Bool.not_eq_true, List.any_eq_false] at hc
    have h0 : countLR (pendingFor w t) = 0 := by
      rw [countLR, List.length_eq_zero, List.filter_eq_nil_iff]
      intro a ha
      simpa using hc a ha
    rw [pendingFor_posted_append, countLR_append, h0]
    simp [countLR, Msg.ty]

theorem postLR_empty (w : World) (t : WidgetId) (h : w.posted = []) :
    postMsg w t Msg.layoutRequest = { w with posted := [(t, Msg.layoutRequest)] } := by
  unfold postMsg
  rw [if_neg]
  · simp only [h, List.nil_append]
  · unfold compressMessage pendingFor
    simp [h]

theorem postLR_fixed (w : World) (t : WidgetId) :
    postMsg { w with posted := [(t, Msg.layoutRequest)] } t Msg.layoutRequest =
      { w with posted := [(t, Msg.layoutRequest)] } := by
  unfold postMsg
  rw [if_pos]
  unfold compressMessage pendingFor
  simp [Msg.ty]

theorem postLRn_fixed : ∀ (n : Nat) (w : World) (t : WidgetId),
    postLRn n { w with posted := [(t, Msg.layoutRequest)] } t =
      { w with posted := [(t, Msg.layoutRequest)] } := by
  intro n
  induction n with
  | zero => intro w t; rfl
  | succ n ih =>
    intro w t
    show postLRn n (postMsg { w with posted := [(t, Msg.layoutRequest)] } t Msg.layoutRequest) t = _
    rw [postLR_fixed]
    exact ih w t

theorem postLRn_single (n : Nat) (w : World) (t : WidgetId) (h : w.posted = []) :
    postLRn (n + 1) w t = { w with posted := [(t, Msg.layoutRequest)] } := by
  show postLRn n (postMsg w t Msg.layoutRequest) t = _
  rw [postLR_empty w t h]
  exact postLRn_fixed n w t

/-- C8: `compressMessage` returns true exactly when the new message is a
`layout-request` and a `layout-request` is already pending (first conjunct);
consequently the pending queue never holds more than one `layout-request` for
a widget no matter how many are posted (second conjunct), and posting N ≥ 1
`layout-request`s to a widget with an empty queue and then draining the queue
delivers exactly one `layout-request` (third conjunct; the dispatcher queue
is modelled from the spec). -/
theorem c8_compress :
    (∀ (m : Msg) (pending : List Msg),
      compressMessage m pending = true ↔
        (m.ty = MsgTy.layoutRequest ∧
          pending.any (fun o => o.ty = MsgTy.layoutRequest) = true)) ∧
    (∀ (w : World) (t : WidgetId) (n : Nat), countLR (pendingFor w t) ≤ 1 →
      countLR (pendingFor (postLRn n w t) t) ≤ 1) ∧
    (∀ (f n : Nat) (w : World) (t : WidgetId), w.posted = [] →
      ((drainOp (f + 2) (postLRn (n + 1) w t)).map fun v => v.log) =
        some (w.log ++ [(t, Msg.layoutRequest)])) := by
  refine ⟨?_, ?_, ?_⟩
  · intro m pending
    unfold compressMessage
    by_cases h : m.ty = MsgTy.layoutRequest <;> simp [h]
  · intro w t n
    induction n generalizing w with
    | zero => intro h; exact h
    | succ n ih =>
      intro h
      show countLR (pendingFor (postLRn n (postMsg w t Msg.layoutRequest) t) t) ≤ 1
      exact ih _ (countLR_postLR w t h)
  · intro f n w t h
    rw [postLRn_single n w t h]
    unfold drainOp
    show (((sendMessage (f + 2) _ t Msg.layoutRequest).bind fun w1 =>
      deliverList (f + 2) w1 []).map fun v => v.log) = _
    unfold sendMessage
    rw [step_send, step_proc_layoutRequest]
    simp [deliverList]

/-- C8 witness: a `layout-request` posted over a pending `layout-request` is
compressed; after three posts to widget 0 of the fresh world at most one is
pending, and draining delivers exactly one `layout-request`. -/
theorem c8_witness :
    compressMessage Msg.layoutRequest [Msg.layoutRequest] = true ∧
    countLR (pendingFor (postLRn 3 baseWorld 0) 0) ≤ 1 ∧
    ((drainOp 10 (postLRn 3 baseWorld 0)).map fun v => v.log) =
      some (baseWorld.log ++ [(0, Msg.layoutRequest)]) := by
  refine ⟨?_, ?_, ?_⟩
  · exact (c8_compress.1 Msg.layoutRequest [Msg.layoutRequest]).mpr ⟨rfl, by decide⟩
  · exact c8_compress.2.1 baseWorld 0 3 (by decide)
  · exact c8_compress.2.2 8 2 baseWorld 0 rfl

/-- C9: assigning to the layout property the layout that is already installed
(or null when none is installed) returns at once with no error, no disposal,
no filter change and no `layout-changed` message — the world is returned
unchanged — regardless of the DisallowLayoutChange flag, because the no-op
check precedes the flag check. -/
theorem c9_layout_noop (f : Nat) (w : World) (t : WidgetId) (l : Option LayoutId)
    (h : (getW w t).layout = l) : setLayoutOp f w t l = some (Except.ok w) := by
  unfold setLayoutOp
  simp [h]

/-- C9 witness: widget 0 of `c7World` has no layout and has
DisallowLayoutChange set; assigning null succeeds and changes nothing. -/
theorem c9_witness :
    (getW c7World 0).layout = none ∧
    (getW c7World 0).disallowLayoutChange = true ∧
    setLayoutOp 5 c7World 0 none = some (Except.ok c7World) :=
  ⟨rfl, rfl, c9_layout_noop 5 c7World 0 none rfl⟩

/-- C10: `children()` returns a fresh copy of the child list: the returned
array has the `_children` contents, its id is distinct from the widget's
`_children` array, mutating it leaves the widget's array unchanged, and an
immediately repeated call returns the same contents. -/
theorem c10_children_copy (s : ArrWorld) (h : s.childrenRef < s.nextArr) :
    ((childrenOp s).2).arr (childrenOp s).1 = s.arr s.childrenRef ∧
    ((childrenOp s).2).childrenRef = s.childrenRef ∧
    ((childrenOp s).2).arr s.childrenRef = s.arr s.childrenRef ∧
    (childrenOp s).1 ≠ ((childrenOp s).2).childrenRef ∧
    (∀ g, (writeArr (childrenOp s).2 (childrenOp s).1 g).arr s.childrenRef =
      s.arr s.childrenRef) ∧
    ((childrenOp (childrenOp s).2).2).arr (childrenOp (childrenOp s).2).1 =
      ((childrenOp s).2).arr (childrenOp s).1 := by
  have hne : s.childrenRef ≠ s.nextArr := Nat.ne_of_lt h
  refine ⟨by simp [childrenOp], rfl, by simp [childrenOp, hne], ?_, ?_, ?_⟩
  · simp [childrenOp]
    omega
  · intro g
    simp [childrenOp, writeArr, hne]
  · simp [childrenOp, hne]

/-- C10 witness: on the concrete array heap, the returned copy holds [5, 6],
pushing onto the copy leaves the widget's array at [5, 6], and a repeated
call returns equal contents. -/
theorem c10_witness :
    ((childrenOp c10Arr).2).arr (childrenOp c10Arr).1 = c10Arr.arr c10Arr.childrenRef ∧
    (writeArr (childrenOp c10Arr).2 (childrenOp c10Arr).1 (fun l => l ++ [9])).arr
      c10Arr.childrenRef = c10Arr.arr c10Arr.childrenRef ∧
    ((childrenOp (childrenOp c10Arr).2).2).arr (childrenOp (childrenOp c10Arr).2).1 =
      ((childrenOp c10Arr).2).arr (childrenOp c10Arr).1 := by
  have h := c10_children_copy c10Arr (by decide)
  exact ⟨h.1, h.2.2.2.2.1 (fun l => l ++ [9]), h.2.2.2.2.2⟩

@[simp] theorem layoutDispose_log (w : World) (l : LayoutId) :
    (layoutDispose w l).log = w.log := rfl

@[simp] theorem layoutDispose_layoutObj (w : World) (l j : LayoutId) :
    (layoutDispose w l).layoutObj j =
      if j = l then { w.layoutObj j with disposed := true, parent := none }
      else w.layoutObj j := rfl

@[simp] theorem layoutSetParent_log (w : World) (l : LayoutId) (p : Option WidgetId) :
    (layoutSetParent w l p).log = w.log := rfl

@[simp] theorem layoutSetParent_layoutObj (w : World) (l : LayoutId) (p : Option WidgetId) (j : LayoutId) :
    (layoutSetParent w l p).layoutObj j =
      if j = l then { w.layoutObj j with parent := p } else w.layoutObj j := rfl

@[simp] theorem layoutInvalidate_layoutObj (w : World) (l j : LayoutId) :
    (layoutInvalidate w l).layoutObj j =
      if j = l then { w.layoutObj j with invalidated := true } else w.layoutObj j := rfl

@[simp] theorem installFilter_log (w : World) (t : WidgetId) (l : LayoutId) :
    (installFilter w t l).log = w.log := rfl

@[simp] theorem installFilter_filters (w : World) (t : WidgetId) (l : LayoutId) (j : WidgetId) :
    (installFilter w t l).filters j =
      if j = t then w.filters j ++ [l] else w.filters j := rfl

@[simp] theorem installFilter_layoutObj (w : World) (t : WidgetId) (l : LayoutId) :
    (installFilter w t l).layoutObj = w.layoutObj := rfl

@[simp] theorem removeFilter_log (w : World) (t : WidgetId) (l : LayoutId) :
    (removeFilter w t l).log = w.log := rfl

@[simp] theorem removeFilter_filters (w : World) (t : WidgetId) (l : LayoutId) (j : WidgetId) :
    (removeFilter w t l).filters j =
      if j = t then (w.filters j).erase l else w.filters j := rfl

@[simp] theorem removeFilter_layoutObj (w : World) (t : WidgetId) (l : LayoutId) :
    (removeFilter w t l).layoutObj = w.layoutObj := rfl

@[simp] theorem layoutSetParent_filters (w : World) (l : LayoutId) (p : Option WidgetId) :
    (layoutSetParent w l p).filters = w.filters := rfl

@[simp] theorem layoutDispose_filters (w : World) (l : LayoutId) :
    (layoutDispose w l).filters = w.filters := rfl
theorem step_proc_triv (f : Nat) (w : World) (t : WidgetId) (m : Msg) (h : trivMsg m = true) :
    step (f + 1) w (.proc t m) = some w := by
  cases m <;> first | rfl | simp [trivMsg] at h

theorem step_send_triv {f : Nat} {w : World} {t : WidgetId} {m : Msg} {w' : World}
    (h : step f w (.send t m) = some w') (ht : trivMsg m = true) :
    w' = pushLog w t m := by
  match f with
  | 0 => rw [step_zero] at h; simp at h
  | 1 => rw [step_send, step_zero] at h; simp at h
  | fx + 2 =>
    rw [step_send, step_proc_triv _ _ _ _ ht] at h
    exact (Option.some.inj h).symm

/-- C7: installing a layout whose parent slot is occupied fails; installing
any different layout while DisallowLayoutChange is set fails; both failures
abort before any mutation (the error is returned with no successor world, as
the setter throws before touching state).  On success the old layout is
unfiltered and disposed, the new layout is installed as a filter with its
parent set to this widget, and `layout-changed` is delivered afterwards.  The
last conjunct covers the success path that clears the layout to null. -/
theorem c7_setLayout :
    (∀ (f : Nat) (w : World) (t : WidgetId) (l : Option LayoutId),
      (getW w t).layout ≠ l → (getW w t).disallowLayoutChange = true →
      setLayoutOp f w t l = some (Except.error WErr.layoutChangeDisallowed)) ∧
    (∀ (f : Nat) (w : World) (t : WidgetId) (L : LayoutId),
      (getW w t).layout ≠ some L → (getW w t).disallowLayoutChange = false →
      (w.layoutObj L).parent.isSome = true →
      setLayoutOp f w t (some L) = some (Except.error WErr.layoutAlreadyInstalled)) ∧
    (∀ (f : Nat) (w : World) (t : WidgetId) (L : LayoutId) (w' : World),
      (getW w t).layout ≠ some L → (getW w t).disallowLayoutChange = false →
      (w.layoutObj L).parent = none →
      setLayoutOp f w t (some L) = some (Except.ok w') →
      (getW w' t).layout = some L ∧
      (w'.layoutObj L).parent = some t ∧
      L ∈ w'.filters t ∧
      (∀ oldL, (getW w t).layout = some oldL →
        (w'.layoutObj oldL).disposed = true ∧ (w'.layoutObj oldL).parent = none ∧
        ((w.filters t).count oldL ≤ 1 → oldL ∉ w'.filters t)) ∧
      w'.log = w.log ++ [(t, Msg.layoutChanged)]) ∧
    (∀ (f : Nat) (w : World) (t : WidgetId) (oldL : LayoutId) (w' : World),
      (getW w t).layout = some oldL → (getW w t).disallowLayoutChange = false →
      setLayoutOp f w t none = some (Except.ok w') →
      (getW w' t).layout = none ∧ (w'.layoutObj oldL).disposed = true ∧
      ((w.filters t).count oldL ≤ 1 → oldL ∉ w'.filters t) ∧
      w'.log = w.log ++ [(t, Msg.layoutChanged)]) := by
  refine ⟨?_, ?_, ?_, ?_⟩
  · intro f w t l hne hd
    unfold setLayoutOp
    rw [if_neg hne, if_pos (by rw [hd])]
  · intro f w t L hne hd hp
    unfold setLayoutOp
    rw [if_neg hne, if_neg (by rw [hd]; exact Bool.false_ne_true), if_pos (by simpa using hp)]
  · intro f w t L w' hne hd hp h
    unfold setLayoutOp at h
    rw [if_neg hne, if_neg (by rw [hd]; exact Bool.false_ne_true),
      if_neg (by simp [hp])] at h
    rcases hm : (getW w t).layout with _ | oldL
    · rw [hm] at h
      rw [Option.map_eq_some'] at h
      obtain ⟨w2, hw2, he⟩ := h
      obtain rfl : w2 = w' := by injection he
      have hpl := step_send_triv hw2 rfl
      subst hpl
      refine ⟨?_, ?_, ?_, ?_, ?_⟩
      · simp [getW_updW_self]
      · simp
      · simp
      · intro oldL h0
        exact absurd h0 (by simp)
      · simp
    · rw [hm] at h
      rw [Option.map_eq_some'] at h
      obtain ⟨w2, hw2, he⟩ := h
      obtain rfl : w2 = w' := by injection he
      have hLold : oldL ≠ L := by
        intro hq; rw [hq] at hm; exact hne hm
      have hpl := step_send_triv hw2 rfl
      subst hpl
      refine ⟨?_, ?_, ?_, ?_, ?_⟩
      · simp [getW_updW_self]
      · simp
      · simp
      · intro oldL2 h0
        obtain rfl : oldL = oldL2 := by injection h0
        refine ⟨?_, ?_, ?_⟩
        · simp [hLold]
        · simp [hLold]
        · intro hcount
          have hz : ((w.filters t).erase oldL).count oldL = 0 := by
            have h1 := List.count_erase_self oldL (w.filters t)
            omega
          simp only [pushLog_filters, layoutSetParent_filters, installFilter_filters,
            updW_filters, removeFilter_filters, layoutDispose_filters]
          simp only [if_true, List.mem_append, not_or]
          exact ⟨List.count_eq_zero.mp hz, by simp [hLold]⟩
      · simp
  · intro f w t oldL w' hm hd h
    unfold setLayoutOp at h
    rw [if_neg (show ¬(getW w t).layout = none by rw [hm]; simp),
      if_neg (by rw [hd]; exact Bool.false_ne_true),
      if_neg (by simp)] at h
    rw [hm] at h
    rw [Option.map_eq_some'] at h
    obtain ⟨w2, hw2, he⟩ := h
    obtain rfl : w2 = w' := by injection he
    have hpl := step_send_triv hw2 rfl
    subst hpl
    refine ⟨?_, ?_, ?_, ?_⟩
    · simp [getW_updW_self]
    · simp
    · intro hcount
      have hz : ((w.filters t).erase oldL).count oldL = 0 := by
        have h1 := List.count_erase_self oldL (w.filters t)
        omega
      simp only [pushLog_filters, layoutDispose_filters, removeFilter_filters,
        updW_filters, if_true]
      exact List.count_eq_zero.mp hz
    · simp

/-- C7 witness: on `c7World`, a different layout is refused for widget 0
(DisallowLayoutChange), layout 7 owned by widget 9 is refused for widget 1,
and giving widget 2 layout 4 succeeds: layout 3 is disposed and unfiltered,
layout 4 is installed and owned, and `layout-changed` is logged. -/
theorem c7_witness :
    setLayoutOp 10 c7World 0 (some 5) = some (Except.error WErr.layoutChangeDisallowed) ∧
    setLayoutOp 10 c7World 1 (some 7) = some (Except.error WErr.layoutAlreadyInstalled) ∧
    setLayoutOp 10 c7World 2 (some 4) = some (Except.ok c7Out) ∧
    (getW c7Out 2).layout = some 4 ∧
    (c7Out.layoutObj 4).parent = some 2 ∧
    4 ∈ c7Out.filters 2 ∧
    (c7Out.layoutObj 3).disposed = true ∧
    3 ∉ c7Out.filters 2 ∧
    c7Out.log = c7World.log ++ [(2, Msg.layoutChanged)] := by
  have hrun : setLayoutOp 10 c7World 2 (some 4) = some (Except.ok c7Out) := rfl
  have h := c7_setLayout.2.2.1 10 c7World 2 4 c7Out (by decide) rfl rfl hrun
  have ho := h.2.2.2.1 3 rfl
  exact ⟨c7_setLayout.1 10 c7World 0 (some 5) (by decide) rfl,
    c7_setLayout.2.1 10 c7World 1 7 (by decide) rfl rfl,
    hrun, h.1, h.2.1, h.2.2.1, ho.1, ho.2.2 (by decide), h.2.2.2.2⟩

theorem boxSizingOp_fst (w : World) (t : WidgetId) : (boxSizingOp w t).1 = boxVal w t := by
  unfold boxSizingOp boxVal
  rcases h : (getW w t).boxSizing with _ | b <;> simp [h]

theorem boxSizingOp_snd (w : World) (t : WidgetId) :
    (boxSizingOp w t).2 = updW w t (fun s => { s with boxSizing := some (boxVal w t) }) := by
  unfold boxSizingOp boxVal
  rcases h : (getW w t).boxSizing with _ | b
  · simp [h]
  · simp only [h, Option.getD_some]
    have he : (fun s : Widget => { s with boxSizing := some b }) (getW w t) = getW w t := by
      rw [← h]
    unfold updW
    rw [he, putW_getW_self]

theorem cond_upd_x (w v : World) (t : WidgetId) (x : Int) (hv : (getW v t).x = (getW w t).x) :
    (if (getW w t).x = x then v else updW v t (fun s => { s with x := x })) =
      updW v t (fun s => { s with x := x }) := by
  split
  · next h =>
    have he : (fun s : Widget => { s with x := x }) (getW v t) = getW v t := by
      rw [← h, ← hv]
    unfold updW
    rw [he, putW_getW_self]
  · rfl

theorem cond_upd_y (w v : World) (t : WidgetId) (y : Int) (hv : (getW v t).y = (getW w t).y) :
    (if (getW w t).y = y then v else updW v t (fun s => { s with y := y })) =
      updW v t (fun s => { s with y := y }) := by
  split
  · next h =>
    have he : (fun s : Widget => { s with y := y }) (getW v t) = getW v t := by
      rw [← h, ← hv]
    unfold updW
    rw [he, putW_getW_self]
  · rfl

theorem cond_upd_w (w v : World) (t : WidgetId) (wc : Int)
    (hv : (getW v t).width = (getW w t).width) :
    (if (getW w t).width = wc then v else updW v t (fun s => { s with width := wc })) =
      updW v t (fun s => { s with width := wc }) := by
  split
  · next h =>
    have he : (fun s : Widget => { s with width := wc }) (getW v t) = getW v t := by
      rw [← h, ← hv]
    unfold updW
    rw [he, putW_getW_self]
  · rfl

theorem cond_upd_h (w v : World) (t : WidgetId) (hc : Int)
    (hv : (getW v t).height = (getW w t).height) :
    (if (getW w t).height = hc then v else updW v t (fun s => { s with height := hc })) =
      updW v t (fun s => { s with height := hc }) := by
  split
  · next h =>
    have he : (fun s : Widget => { s with height := hc }) (getW v t) = getW v t := by
      rw [← h, ← hv]
    unfold updW
    rw [he, putW_getW_self]
  · rfl

/-- C3: `setGeometry` clips width and height into the box-metric limits,
stores the given position and the clipped size, and delivers a `move` message
iff the stored x or y changed and a `resize` message iff the stored clipped
width or height changed (first conjunct); the clipped size lies inside
[min, max] whenever the limits are ordered (second conjunct); a repeated
identical call changes nothing and delivers nothing (third conjunct); and a
call changing only the width delivers a single `resize` and no `move`
(fourth conjunct). -/
theorem c3_setGeometry :
    (∀ (f : Nat) (w : World) (t : WidgetId) (x y gw gh : Int) (w' : World),
      setGeometryOp f w t x y gw gh = some w' →
      (getW w' t).x = x ∧ (getW w' t).y = y ∧
      (getW w' t).width = max (boxVal w t).minWidth (min gw (boxVal w t).maxWidth) ∧
      (getW w' t).height = max (boxVal w t).minHeight (min gh (boxVal w t).maxHeight) ∧
      (getW w' t).boxSizing = some (boxVal w t) ∧
      (getW w' t).styleBox = (getW w t).styleBox ∧
      w'.log = w.log ++
        (if (getW w t).x = x ∧ (getW w t).y = y then []
         else [(t, Msg.move (getW w t).x (getW w t).y x y)]) ++
        (if (getW w t).width = max (boxVal w t).minWidth (min gw (boxVal w t).maxWidth) ∧
            (getW w t).height = max (boxVal w t).minHeight (min gh (boxVal w t).maxHeight) then []
         else [(t, Msg.resize (getW w t).width (getW w t).height
           (max (boxVal w t).minWidth (min gw (boxVal w t).maxWidth))
           (max (boxVal w t).minHeight (min gh (boxVal w t).maxHeight)))])) ∧
    (∀ (w : World) (t : WidgetId) (gw gh : Int),
      ((boxVal w t).minWidth ≤ (boxVal w t).maxWidth →
        (boxVal w t).minWidth ≤ max (boxVal w t).minWidth (min gw (boxVal w t).maxWidth) ∧
        max (boxVal w t).minWidth (min gw (boxVal w t).maxWidth) ≤ (boxVal w t).maxWidth) ∧
      ((boxVal w t).minHeight ≤ (boxVal w t).maxHeight →
        (boxVal w t).minHeight ≤ max (boxVal w t).minHeight (min gh (boxVal w t).maxHeight) ∧
        max (boxVal w t).minHeight (min gh (boxVal w t).maxHeight) ≤ (boxVal w t).maxHeight)) ∧
    (∀ (f g : Nat) (w : World) (t : WidgetId) (x y gw gh : Int) (w' w2 : World),
      setGeometryOp f w t x y gw gh = some w' →
      setGeometryOp g w' t x y gw gh = some w2 →
      w2 = w') ∧
    (∀ (f : Nat) (w : World) (t : WidgetId) (gw gh : Int) (w' : World),
      setGeometryOp f w t (getW w t).x (getW w t).y gw gh = some w' →
      max (boxVal w t).minHeight (min gh (boxVal w t).maxHeight) = (getW w t).height →
      max (boxVal w t).minWidth (min gw (boxVal w t).maxWidth) ≠ (getW w t).width →
      w'.log = w.log ++ [(t, Msg.resize (getW w t).width (getW w t).height
        (max (boxVal w t).minWidth (min gw (boxVal w t).maxWidth)) (getW w t).height)]) := by
  have clauseA : ∀ (f : Nat) (w : World) (t : WidgetId) (x y gw gh : Int) (w' : World),
      setGeometryOp f w t x y gw gh = some w' →
      (getW w' t).x = x ∧ (getW w' t).y = y ∧
      (getW w' t).width = max (boxVal w t).minWidth (min gw (boxVal w t).maxWidth) ∧
      (getW w' t).height = max (boxVal w t).minHeight (min gh (boxVal w t).maxHeight) ∧
      (getW w' t).boxSizing = some (boxVal w t) ∧
      (getW w' t).styleBox = (getW w t).styleBox ∧
      w'.log = w.log ++
        (if (getW w t).x = x ∧ (getW w t).y = y then []
         else [(t, Msg.move (getW w t).x (getW w t).y x y)]) ++
        (if (getW w t).width = max (boxVal w t).minWidth (min gw (boxVal w t).maxWidth) ∧
            (getW w t).height = max (boxVal w t).minHeight (min gh (boxVal w t).maxHeight) then []
         else [(t, Msg.resize (getW w t).width (getW w t).height
           (max (boxVal w t).minWidth (min gw (boxVal w t).maxWidth))
           (max (boxVal w t).minHeight (min gh (boxVal w t).maxHeight)))]) := by
    intro f w t x y gw gh w' h
    simp only [setGeometryOp] at h
    rw [boxSizingOp_fst, boxSizingOp_snd] at h
    rw [cond_upd_x w _ t x (by simp [getW_updW_self])] at h
    rw [cond_upd_y w _ t y (by simp [getW_updW_self, getW_updW])] at h
    rw [cond_upd_w w _ t _ (by simp [getW_updW_self, getW_updW])] at h
    rw [cond_upd_h w _ t _ (by simp [getW_updW_self, getW_updW])] at h
    rw [Option.bind_eq_some] at h
    obtain ⟨w5, h5, h6⟩ := h
    split at h5
    all_goals split at h6
    · next hmv hrs =>
      obtain rfl := Option.some.inj h5
      obtain rfl := Option.some.inj h6
      refine ⟨by simp [getW_updW_self], by simp [getW_updW_self], by simp [getW_updW_self],
        by simp [getW_updW_self], by simp [getW_updW_self], by simp [getW_updW_self], ?_⟩
      simp [hmv, hrs]
    · next hmv hrs =>
      obtain rfl := Option.some.inj h5
      have hp := step_send_triv h6 rfl
      subst hp
      refine ⟨by simp [getW_updW_self], by simp [getW_updW_self], by simp [getW_updW_self],
        by simp [getW_updW_self], by simp [getW_updW_self], by simp [getW_updW_self], ?_⟩
      simp [hmv, hrs]
    · next hmv hrs =>
      have hp := step_send_triv h5 rfl
      subst hp
      obtain rfl := Option.some.inj h6
      refine ⟨by simp [getW_updW_self], by simp [getW_updW_self], by simp [getW_updW_self],
        by simp [getW_updW_self], by simp [getW_updW_self], by simp [getW_updW_self], ?_⟩
      simp [hmv, hrs]
    · next hmv hrs =>
      have hp := step_send_triv h5 rfl
      subst hp
      have hp6 := step_send_triv h6 rfl
      subst hp6
      refine ⟨by simp [getW_updW_self], by simp [getW_updW_self], by simp [getW_updW_self],
        by simp [getW_updW_self], by simp [getW_updW_self], by simp [getW_updW_self], ?_⟩
      simp [hmv, hrs]
  refine ⟨clauseA, ?_, ?_, ?_⟩
  · intro w t gw gh
    constructor
    · intro hord
      exact ⟨le_max_left _ _, max_le hord (min_le_right _ _)⟩
    · intro hord
      exact ⟨le_max_left _ _, max_le hord (min_le_right _ _)⟩
  · intro f g w t x y gw gh w' w2 h1 h2
    obtain ⟨hx, hy, hww, hhh, hbox, hsty, _⟩ := clauseA f w t x y gw gh w' h1
    have hbv : boxVal w' t = boxVal w t := by
      unfold boxVal
      rw [hbox]
      rfl
    have hbs : boxSizingOp w' t = (boxVal w t, w') := by
      unfold boxSizingOp
      rw [hbox]
    simp only [setGeometryOp, hbs] at h2
    rw [hx, hy, hww, hhh] at h2
    simp at h2
    exact h2.symm
  · intro f w t gw gh w' h hsame hdiff
    obtain ⟨_, _, _, _, _, _, hlog⟩ := clauseA f w t (getW w t).x (getW w t).y gw gh w' h
    rw [hlog, if_pos ⟨rfl, rfl⟩]
    rw [if_neg]
    · rw [hsame]
      simp
    · rintro ⟨hc1, _⟩
      exact hdiff hc1.symm

/-- C3 witness: on `c3World` (geometry (1,2,5,5), width/height limits
[3,10]), setting geometry (1, 2, 20, 5) keeps the position, clips the width
to 10, and logs exactly one `resize` and no `move`; repeating the identical
call returns the world unchanged with no messages. -/
theorem c3_witness :
    setGeometryOp 10 c3World 0 1 2 20 5 = some c3Out ∧
    c3Out.log = c3World.log ++ [(0, Msg.resize (getW c3World 0).width (getW c3World 0).height
      (max (boxVal c3World 0).minWidth (min 20 (boxVal c3World 0).maxWidth))
      (getW c3World 0).height)] ∧
    setGeometryOp 10 c3Out 0 1 2 20 5 = some c3Out2 ∧
    c3Out2 = c3Out ∧
    (getW c3Out 0).width = max (boxVal c3World 0).minWidth (min 20 (boxVal c3World 0).maxWidth) := by
  have h1 : setGeometryOp 10 c3World 0 1 2 20 5 = some c3Out := rfl
  have h2 : setGeometryOp 10 c3Out 0 1 2 20 5 = some c3Out2 := rfl
  refine ⟨h1, ?_, h2,
    c3_setGeometry.2.2.1 10 10 c3World 0 1 2 20 5 c3Out c3Out2 h1 h2,
    (c3_setGeometry.1 10 c3World 0 1 2 20 5 c3Out h1).2.2.1⟩
  exact c3_setGeometry.2.2.2 10 c3World 0 20 5 c3Out h1 (by decide) (by decide)

/-- C4: assigning the current parent is a no-op delivering nothing (first
conjunct).  Assigning a different parent C to a widget A with parent B sends
exactly `child-removed` to B, then `child-added` to C, then `parent-changed`
to A, in that order — the second conjunct shows this order in the delivery
log for arbitrary worlds (the child handlers of attached parents may nest
further deliveries between them); the third conjunct shows the log extension
is exactly those three deliveries when neither B nor C is attached, along
with the list surgery on both parents. -/
theorem c4_reparent :
    (∀ (f : Nat) (w : World) (t : WidgetId) (p : Option WidgetId),
      (getW w t).parent = p → setParentOp (f + 1) w t p = some w) ∧
    (∀ (f : Nat) (w : World) (a b c : WidgetId) (w' : World),
      (getW w a).parent = some b → b ≠ c →
      setParentOp f w a (some c) = some w' →
      ∃ e1 e2, w'.log = w.log ++ [(b, Msg.childRemoved a)] ++ e1 ++
        [(c, Msg.childAdded a)] ++ e2 ++ [(a, Msg.parentChanged)]) ∧
    (∀ (f : Nat) (w : World) (a b c : WidgetId) (w' : World),
      (getW w a).parent = some b → b ≠ c → a ≠ b → a ≠ c →
      (getW w b).isAttachedF = false → (getW w c).isAttachedF = false →
      setParentOp f w a (some c) = some w' →
      w'.log = w.log ++
        [(b, Msg.childRemoved a), (c, Msg.childAdded a), (a, Msg.parentChanged)] ∧
      (getW w' a).parent = some c ∧
      (getW w' b).children = (getW w b).children.erase a ∧
      (getW w' c).children = (getW w c).children ++ [a]) := by
  refine ⟨?_, ?_, ?_⟩
  · intro f w t p h
    unfold setParentOp
    rw [step_setPar, if_pos h]
  · intro f w a b c w' hpar hbc h
    unfold setParentOp at h
    match f, h with
    | fg + 1, h =>
      rw [step_setPar, if_neg (by rw [hpar]; simp [hbc]), hpar] at h
      simp only [Option.bind_eq_some] at h
      obtain ⟨wa, ha, wb, hbb, hcc⟩ := h
      match fg, ha, hbb with
      | fh + 1, ha, hbb =>
        rw [step_send] at ha hbb
        obtain ⟨e1, he1⟩ := step_log_mono _ _ _ _ ha
        obtain ⟨e2, he2⟩ := step_log_mono _ _ _ _ hbb
        have hw' := step_send_triv hcc rfl
        subst hw'
        refine ⟨e1, e2, ?_⟩
        rw [pushLog_log, he2, pushLog_log, updW_log, updW_log, he1, pushLog_log,
          updW_log, updW_log]
  · intro f w a b c w' hpar hbc hab hac hBatt hCatt h
    unfold setParentOp at h
    match f, h with
    | fg + 1, h =>
      rw [step_setPar, if_neg (by rw [hpar]; simp [hbc]), hpar] at h
      simp only [Option.bind_eq_some] at h
      obtain ⟨wa, ha, wb, hbb, hcc⟩ := h
      match fg, ha, hbb with
      | fh + 1, ha, hbb =>
        rw [step_send] at ha hbb
        match fh, ha, hbb with
        | fi + 1, ha, hbb =>
          rw [step_proc_childRemoved] at ha
          rw [if_neg (by simp [getW_updW, Ne.symm hab, hBatt])] at ha
          obtain rfl := Option.some.inj ha
          rw [step_proc_childAdded] at hbb
          rw [if_neg (by simp [getW_updW, setNodeParent, Ne.symm hac, Ne.symm hbc, hCatt])] at hbb
          obtain rfl := Option.some.inj hbb
          have hw' := step_send_triv hcc rfl
          subst hw'
          refine ⟨?_, ?_, ?_, ?_⟩
          all_goals
            simp [setNodeParent, getW_updW, hab, hac, hbc, Ne.symm hab, Ne.symm hac,
              Ne.symm hbc, List.append_assoc]

/-- C4 witness: reparenting widget 0 from widget 1 to widget 2 in `c4World`
logs exactly child-removed at 1, child-added at 2, parent-changed at 0, and
performs the expected list surgery; re-assigning the now-current parent is a
no-op. -/
theorem c4_witness :
    (getW c4World 0).parent = some 1 ∧
    setParentOp 10 c4World 0 (some 2) = some c4Out ∧
    c4Out.log = c4World.log ++
      [(1, Msg.childRemoved 0), (2, Msg.childAdded 0), (0, Msg.parentChanged)] ∧
    (getW c4Out 0).parent = some 2 ∧
    (getW c4Out 1).children = (getW c4World 1).children.erase 0 ∧
    (getW c4Out 2).children = (getW c4World 2).children ++ [0] ∧
    setParentOp 10 c4Out 0 (some 2) = some c4Out := by
  have h1 : setParentOp 10 c4World 0 (some 2) = some c4Out := rfl
  have h := c4_reparent.2.2 10 c4World 0 1 2 c4Out rfl (by decide) (by decide) (by decide)
    rfl rfl h1
  exact ⟨rfl, h1, h.1, h.2.1, h.2.2.1, h.2.2.2, c4_reparent.1 9 c4Out 0 (some 2) h.2.1⟩

theorem updateGeometry_succ (f : Nat) (w : World) (t : WidgetId) (force : Bool) :
    updateGeometry (f + 1) w t force =
      match (getW w t).parent with
      | none => some w
      | some p =>
        if (getW w t).isHiddenF && !force then some w
        else
          match (getW w p).layout with
          | some l => some (layoutInvalidate w l)
          | none => updateGeometry f (postMsg w p .layoutRequest) p false := rfl

theorem Climb_congr (w w' : World) (hg : ∀ j, getW w' j = getW w j) :
    ∀ (a : WidgetId) (l : List WidgetId), Climb w a l → Climb w' a l := by
  intro a l
  induction l generalizing a with
  | nil => intro _; trivial
  | cons b rest ih =>
    rintro ⟨h1, h2⟩
    exact ⟨by rw [hg a]; exact h1, ih b h2⟩

/-- C6 counterexample: the claim says a geometry update bubbles through
layout-less ancestors "until an ancestor with a layout absorbs it or the
root is reached".  In `c6World`, widget 0's ancestor chain is widget 1
(layout-less, hidden) then widget 2 (which owns layout 0); the claim predicts
layout 0 is invalidated, but the run completes leaving layout 0 untouched:
the unforced recursion stops at the hidden ancestor 1 after posting it a
single `layout-request`. -/
theorem c6_counterexample :
    updateGeometry 10 c6World 0 false = some c6Result ∧
    (getW c6World 0).parent = some 1 ∧
    (getW c6World 1).parent = some 2 ∧
    (getW c6World 1).layout = none ∧
    (getW c6World 1).isHiddenF = true ∧
    (getW c6World 0).isHiddenF = false ∧
    (getW c6World 2).layout = some 0 ∧
    (c6Result.layoutObj 0).invalidated = false ∧
    c6Result.posted = [(1, Msg.layoutRequest)] :=
  ⟨rfl, rfl, rfl, rfl, rfl, rfl, rfl, rfl, rfl⟩

/-- C6 amended: `updateGeometry(force)` is a no-op without a parent, or when
Hidden and unforced; when the parent owns a layout it invalidates exactly
that layout; otherwise it posts a coalescible `layout-request` to the parent
and recurses unforced, bubbling through layout-less *non-hidden* ancestors
until an ancestor owning a layout absorbs it (fourth conjunct) or until it
stops — at the root, or at a hidden ancestor, since the recursive call is
unforced (fifth conjunct, which is where the original claim fails); and
`hide()` requests a forced geometry re-evaluation, so hiding a widget still
invalidates its parent's layout (sixth conjunct). -/
theorem c6_amended :
    (∀ (f : Nat) (w : World) (t : WidgetId) (force : Bool),
      (getW w t).parent = none → updateGeometry (f + 1) w t force = some w) ∧
    (∀ (f : Nat) (w : World) (t p : WidgetId),
      (getW w t).parent = some p → (getW w t).isHiddenF = true →
      updateGeometry (f + 1) w t false = some w) ∧
    (∀ (f : Nat) (w : World) (t p : WidgetId) (l : LayoutId) (force : Bool),
      (getW w t).parent = some p → ((getW w t).isHiddenF = true → force = true) →
      (getW w p).layout = some l →
      updateGeometry (f + 1) w t force = some (layoutInvalidate w l)) ∧
    (∀ (mids : List WidgetId) (f : Nat) (w : World) (t : WidgetId) (force : Bool)
        (anc : WidgetId) (l : LayoutId) (w' : World),
      Climb w t (mids ++ [anc]) →
      (∀ m ∈ mids, (getW w m).layout = none ∧ (getW w m).isHiddenF = false) →
      ((getW w t).isHiddenF = true → force = true) →
      (getW w anc).layout = some l →
      updateGeometry f w t force = some w' →
      w' = layoutInvalidate (postList w mids) l) ∧
    (∀ (mids : List WidgetId) (f : Nat) (w : World) (t : WidgetId) (force : Bool)
        (stop : WidgetId) (w' : World),
      Climb w t (mids ++ [stop]) →
      (∀ m ∈ mids, (getW w m).layout = none ∧ (getW w m).isHiddenF = false) →
      ((getW w t).isHiddenF = true → force = true) →
      (getW w stop).layout = none →
      ((getW w stop).parent = none ∨ (getW w stop).isHiddenF = true) →
      updateGeometry f w t force = some w' →
      w' = postList w (mids ++ [stop])) ∧
    (∀ (f : Nat) (w : World) (t p : WidgetId) (l : LayoutId) (w' : World),
      (getW w t).isHiddenF = false → (getW w t).parent = some p →
      (getW w t).isAttachedF = false → (getW w p).layout = some l →
      hideOp f w t = some w' → (w'.layoutObj l).invalidated = true) := by
  have guard : ∀ (w : World) (t : WidgetId) (force : Bool),
      ((getW w t).isHiddenF = true → force = true) →
      ((getW w t).isHiddenF && !force) = false := by
    intro w t force hforce
    cases hh : (getW w t).isHiddenF with
    | false => simp
    | true => simp [hforce hh]
  have clause3 : ∀ (f : Nat) (w : World) (t p : WidgetId) (l : LayoutId) (force : Bool),
      (getW w t).parent = some p → ((getW w t).isHiddenF = true → force = true) →
      (getW w p).layout = some l →
      updateGeometry (f + 1) w t force = some (layoutInvalidate w l) := by
    intro f w t p l force hp hforce hl
    rw [updateGeometry_succ]
    simp only [hp, guard w t force hforce, Bool.false_eq_true, if_false, hl]
  have clause4 : ∀ (mids : List WidgetId) (f : Nat) (w : World) (t : WidgetId) (force : Bool)
      (anc : WidgetId) (l : LayoutId) (w' : World),
      Climb w t (mids ++ [anc]) →
      (∀ m ∈ mids, (getW w m).layout = none ∧ (getW w m).isHiddenF = false) →
      ((getW w t).isHiddenF = true → force = true) →
      (getW w anc).layout = some l →
      updateGeometry f w t force = some w' →
      w' = layoutInvalidate (postList w mids) l := by
    intro mids
    induction mids with
    | nil =>
      intro f w t force anc l w' hcl hm hforce hl h
      match f, h with
      | ff + 1, h =>
        rw [clause3 ff w t anc l force hcl.1 hforce hl] at h
        exact (Option.some.inj h).symm
    | cons m rest ih =>
      intro f w t force anc l w' hcl hm hforce hl h
      match f, h with
      | ff + 1, h =>
        rw [updateGeometry_succ] at h
        simp only [hcl.1, guard w t force hforce, Bool.false_eq_true, if_false,
          (hm m (by simp)).1] at h
        refine ih ff (postMsg w m .layoutRequest) m false anc l w' ?_ ?_ ?_ ?_ h
        · exact Climb_congr w (postMsg w m .layoutRequest) (fun j => postMsg_getW w m _ j)
            m (rest ++ [anc]) hcl.2
        · intro m2 hm2
          rw [postMsg_getW]
          exact hm m2 (by simp [hm2])
        · rw [postMsg_getW]
          intro hh
          exact absurd hh (by simp [(hm m (by simp)).2])
        · rw [postMsg_getW]
          exact hl
  have clause5 : ∀ (mids : List WidgetId) (f : Nat) (w : World) (t : WidgetId) (force : Bool)
      (stop : WidgetId) (w' : World),
      Climb w t (mids ++ [stop]) →
      (∀ m ∈ mids, (getW w m).layout = none ∧ (getW w m).isHiddenF = false) →
      ((getW w t).isHiddenF = true → force = true) →
      (getW w stop).layout = none →
      ((getW w stop).parent = none ∨ (getW w stop).isHiddenF = true) →
      updateGeometry f w t force = some w' →
      w' = postList w (mids ++ [stop]) := by
    intro mids
    induction mids with
    | nil =>
      intro f w t force stop w' hcl hm hforce hl hstop h
      match f, h with
      | ff + 1, h =>
        rw [updateGeometry_succ] at h
        simp only [hcl.1, guard w t force hforce, Bool.false_eq_true, if_false, hl] at h
        match ff, h with
        | fg + 1, h =>
          rw [updateGeometry_succ] at h
          rcases hstop with hroot | hhid
          · simp only [postMsg_getW, hroot] at h
            exact (Option.some.inj h).symm
          · rcases hq : (getW w stop).parent with _ | q
            · simp only [postMsg_getW, hq] at h
              exact (Option.some.inj h).symm
            · simp only [postMsg_getW, hq, hhid, Bool.not_false, Bool.and_self,
                if_true] at h
              exact (Option.some.inj h).symm
    | cons m rest ih =>
      intro f w t force stop w' hcl hm hforce hl hstop h
      match f, h with
      | ff + 1, h =>
        rw [updateGeometry_succ] at h
        simp only [hcl.1, guard w t force hforce, Bool.false_eq_true, if_false,
          (hm m (by simp)).1] at h
        refine ih ff (postMsg w m .layoutRequest) m false stop w' ?_ ?_ ?_ ?_ ?_ h
        · exact Climb_congr w (postMsg w m .layoutRequest) (fun j => postMsg_getW w m _ j)
            m (rest ++ [stop]) hcl.2
        · intro m2 hm2
          rw [postMsg_getW]
          exact hm m2 (by simp [hm2])
        · rw [postMsg_getW]
          intro hh
          exact absurd hh (by simp [(hm m (by simp)).2])
        · rw [postMsg_getW]
          exact hl
        · rcases hstop with hroot | hhid
          · exact Or.inl (by rw [postMsg_getW]; exact hroot)
          · exact Or.inr (by rw [postMsg_getW]; exact hhid)
  refine ⟨?_, ?_, clause3, clause4, clause5, ?_⟩
  · intro f w t force hp
    rw [updateGeometry_succ]
    simp only [hp]
  · intro f w t p hp hh
    rw [updateGeometry_succ]
    simp only [hp, hh, Bool.not_false, Bool.and_self, if_true]
  · intro f w t p l w' hh hp hatt hl h
    simp only [hideOp, hh, hp, hatt, Bool.false_eq_true, if_false, Bool.false_and,
      Option.some_bind, Option.bind_eq_some] at h
    obtain ⟨w4, h4, h5⟩ := h
    have hw4 := step_send_triv h4 rfl
    subst hw4
    match f, h5 with
    | ff + 1, h5 =>
      rw [updateGeometry_succ] at h5
      have hpar4 : (getW (pushLog (updW w t fun s =>
          { s with hiddenClass := true, isHiddenF := true }) p (Msg.childHidden t)) t).parent =
          some p := by
        simp only [pushLog_getW, getW_updW]
        split <;> exact hp
      have hlay4 : (getW (pushLog (updW w t fun s =>
          { s with hiddenClass := true, isHiddenF := true }) p (Msg.childHidden t)) p).layout =
          some l := by
        simp only [pushLog_getW, getW_updW]
        split
        · next hpt => rw [hpt] at hl; exact hl
        · exact hl
      simp only [hpar4, hlay4, Bool.not_true, Bool.and_false, Bool.false_eq_true,
        if_false] at h5
      obtain rfl := Option.some.inj h5
      simp

/-- C6 witness: on the three-widget chain `c6bWorld` (middle ancestor
visible and layout-less) the update is absorbed by the grandparent layout;
on `c6World` (middle ancestor hidden) it stops at the hidden ancestor; and
hiding widget 5 of `c6cWorld` invalidates its parent's layout because the
re-evaluation is forced. -/
theorem c6_witness :
    updateGeometry 10 c6bWorld 0 false = some c6bOut ∧
    c6bOut = layoutInvalidate (postList c6bWorld [1]) 0 ∧
    updateGeometry 10 c6World 0 false = some c6Result ∧
    c6Result = postList c6World [1] ∧
    hideOp 50 c6cWorld 5 = some c6cOut ∧
    (c6cOut.layoutObj 1).invalidated = true := by
  have hb : updateGeometry 10 c6bWorld 0 false = some c6bOut := rfl
  have hs : updateGeometry 10 c6World 0 false = some c6Result := rfl
  have hc : hideOp 50 c6cWorld 5 = some c6cOut := rfl
  refine ⟨hb, ?_, hs, ?_, hc, ?_⟩
  · refine c6_amended.2.2.2.1 [1] 10 c6bWorld 0 false 2 0 c6bOut ⟨rfl, rfl, trivial⟩
      ?_ (fun hcon => absurd hcon (by decide)) rfl hb
    intro m hm
    rw [List.mem_singleton] at hm
    subst hm
    exact ⟨rfl, rfl⟩
  · refine c6_amended.2.2.2.2.1 [] 10 c6World 0 false 1 c6Result ⟨rfl, trivial⟩
      ?_ (fun hcon => absurd hcon (by decide)) rfl (Or.inr rfl) hs
    intro m hm
    simp at hm
  · exact c6_amended.2.2.2.2.2 50 c6cWorld 5 6 1 c6cOut rfl rfl rfl rfl hc

/-- C1 (code-bug evaluation): after the public operations `attach` (widget 0
to a host) and parent assignment (widget 0's parent set to the detached
widget 1) complete, widget 0 still has its Visible flag set while its parent
widget 1 is not visible — the §3 visibility invariant, which the code's own
`isVisible` documentation states, fails: `after-attach` only ever sets the
Visible flag and the parent setter re-parents an attached root without
clearing or re-deriving it. -/
theorem c1_codebug :
    c1Run = some c1Out ∧
    (getW c1Out 0).isVisibleF = true ∧
    (getW c1Out 0).isAttachedF = true ∧
    (getW c1Out 0).isHiddenF = false ∧
    (getW c1Out 0).parent = some 1 ∧
    (getW c1Out 1).isVisibleF = false ∧
    visInvariantAt c1Out 0 = false ∧
    c1Check = true :=
  ⟨rfl, rfl, rfl, rfl, rfl, rfl, rfl, rfl⟩

theorem core_children {a b : Widget} (h : b.core = a.core) : b.children = a.children := by
  have := congrArg Widget.children h
  simpa [Widget.core] using this

theorem core_parent {a b : Widget} (h : b.core = a.core) : b.parent = a.parent := by
  have := congrArg Widget.parent h
  simpa [Widget.core] using this

theorem core_layout {a b : Widget} (h : b.core = a.core) : b.layout = a.layout := by
  have := congrArg Widget.layout h
  simpa [Widget.core] using this

theorem core_isHiddenF {a b : Widget} (h : b.core = a.core) : b.isHiddenF = a.isHiddenF := by
  have := congrArg Widget.isHiddenF h
  simpa [Widget.core] using this

theorem core_isDisposedF {a b : Widget} (h : b.core = a.core) :
    b.isDisposedF = a.isDisposedF := by
  have := congrArg Widget.isDisposedF h
  simpa [Widget.core] using this

theorem core_nodeAlive {a b : Widget} (h : b.core = a.core) : b.nodeAlive = a.nodeAlive := by
  have := congrArg Widget.nodeAlive h
  simpa [Widget.core] using this

theorem core_nodeParent {a b : Widget} (h : b.core = a.core) :
    b.nodeParent = a.nodeParent := by
  have := congrArg Widget.nodeParent h
  simpa [Widget.core] using this

theorem getW_updW_pres {A : Type} (w : World) (t j : WidgetId) (fn : Widget → Widget)
    (g : Widget → A) (hfn : ∀ s, g (fn s) = g s) :
    g (getW (updW w t fn) j) = g (getW w j) := by
  simp only [getW_updW]
  split
  · next hjt => rw [hjt]; exact hfn _
  · rfl

theorem updW_mono {A : Type} (w : World) (t j : WidgetId) (fn : Widget → Widget)
    (g : Widget → A) (v : A) (hfn : ∀ s, g (fn s) = v) (hj : g (getW w j) = v) :
    g (getW (updW w t fn) j) = v := by
  simp only [getW_updW]
  split
  · exact hfn _
  · exact hj

theorem attach_fan_mono : ∀ (f : Nat) (w : World) (c : Call) (w' : World),
    attCall c → step f w c = some w' →
    (∀ j, (getW w' j).core = (getW w j).core) ∧
    (∀ j, (getW w j).isAttachedF = true → (getW w' j).isAttachedF = true) ∧
    (∀ j, (getW w j).isVisibleF = true → (getW w' j).isVisibleF = true) ∧
    (∀ j, (getW w j).isHiddenF = true → (getW w' j).isVisibleF = (getW w j).isVisibleF) ∧
    (∀ j, (getW w j).boxSizing = none → (getW w' j).boxSizing = none) ∧
    (match c with
     | .send t m =>
       (m = Msg.afterAttach → (getW w' t).isAttachedF = true ∧
         ∀ ch ∈ (getW w t).children, (getW w' ch).isAttachedF = true) ∧
       (m = Msg.beforeAttach → (getW w' t).boxSizing = none ∧
         ∀ ch ∈ (getW w t).children, (getW w' ch).boxSizing = none)
     | .proc t m =>
       (m = Msg.afterAttach → (getW w' t).isAttachedF = true ∧
         ∀ ch ∈ (getW w t).children, (getW w' ch).isAttachedF = true) ∧
       (m = Msg.beforeAttach → (getW w' t).boxSizing = none ∧
         ∀ ch ∈ (getW w t).children, (getW w' ch).boxSizing = none)
     | .sAll cs m =>
       (m = Msg.afterAttach → ∀ ch ∈ cs, (getW w' ch).isAttachedF = true) ∧
       (m = Msg.beforeAttach → ∀ ch ∈ cs, (getW w' ch).boxSizing = none)
     | _ => True) := by
  intro f
  induction f with
  | zero =>
    intro w c w' _ h
    rw [step_zero] at h
    simp at h
  | succ f ih =>
    intro w c w' hc h
    cases c with
    | sNH cs m => exact False.elim hc
    | setPar t p => exact False.elim hc
    | detachB t => exact False.elim hc
    | send t m =>
      rw [step_send] at h
      have IH := ih (pushLog w t m) (.proc t m) w' hc h
      exact ⟨IH.1, IH.2.1, IH.2.2.1, IH.2.2.2.1, IH.2.2.2.2.1, IH.2.2.2.2.2⟩
    | proc t m =>
      rcases hc with rfl | rfl
      · -- before-attach: clear the box cache, fan to all children
        rw [step_proc_beforeAttach] at h
        have IH := ih _ _ _ (by exact Or.inl rfl) h
        have hcore : ∀ j,
            (getW (updW w t (fun s => { s with boxSizing := none })) j).core =
              (getW w j).core :=
          fun j => getW_updW_pres w t j (fun s => { s with boxSizing := none })
            Widget.core (fun s => rfl)
        refine ⟨?_, ?_, ?_, ?_, ?_, ?_, ?_⟩
        · intro j; rw [IH.1 j, hcore j]
        · intro j hj
          refine IH.2.1 j ?_
          rw [getW_updW_pres w t j (fun s => { s with boxSizing := none })
            Widget.isAttachedF (fun s => rfl)]
          exact hj
        · intro j hj
          refine IH.2.2.1 j ?_
          rw [getW_updW_pres w t j (fun s => { s with boxSizing := none })
            Widget.isVisibleF (fun s => rfl)]
          exact hj
        · intro j hj
          have h2 := IH.2.2.2.1 j (by rw [core_isHiddenF (hcore j)]; exact hj)
          rw [h2]
          exact getW_updW_pres w t j (fun s => { s with boxSizing := none })
            Widget.isVisibleF (fun s => rfl)
        · intro j hj
          refine IH.2.2.2.2.1 j ?_
          exact updW_mono w t j (fun s => { s with boxSizing := none })
            Widget.boxSizing none (fun s => rfl) hj
        · intro hmq; cases hmq
        · intro _
          refine ⟨IH.2.2.2.2.1 t (by simp [getW_updW_self]), ?_⟩
          intro ch hch
          refine IH.2.2.2.2.2.2 rfl ch ?_
          rw [core_children (hcore t)]
          exact hch
      · -- after-attach: maybe set Visible, set Attached, fan to all children
        rw [step_proc_afterAttach] at h
        dsimp only at h
        by_cases hvc : (!(getW w t).isHiddenF &&
            (match (getW w t).parent with
             | none => true
             | some p => (getW w p).isVisibleF)) = true
        · rw [if_pos hvc] at h
          have IH := ih _ _ _ (by exact Or.inr rfl) h
          have hcore : ∀ j,
              (getW (updW (updW w t (fun s => { s with isVisibleF := true })) t
                (fun s => { s with isAttachedF := true })) j).core = (getW w j).core := by
            intro j
            rw [getW_updW_pres _ t j (fun s => { s with isAttachedF := true })
              Widget.core (fun s => rfl)]
            exact getW_updW_pres w t j (fun s => { s with isVisibleF := true })
              Widget.core (fun s => rfl)
          have hatt : ∀ j, (getW w j).isAttachedF = true →
              (getW (updW (updW w t (fun s => { s with isVisibleF := true })) t
                (fun s => { s with isAttachedF := true })) j).isAttachedF = true := by
            intro j hj
            refine updW_mono _ t j _ Widget.isAttachedF true (fun s => rfl) ?_
            rw [getW_updW_pres w t j (fun s => { s with isVisibleF := true })
              Widget.isAttachedF (fun s => rfl)]
            exact hj
          have hvis : ∀ j, (getW w j).isVisibleF = true →
              (getW (updW (updW w t (fun s => { s with isVisibleF := true })) t
                (fun s => { s with isAttachedF := true })) j).isVisibleF = true := by
            intro j hj
            rw [getW_updW_pres _ t j (fun s => { s with isAttachedF := true })
              Widget.isVisibleF (fun s => rfl)]
            exact updW_mono w t j _ Widget.isVisibleF true (fun s => rfl) hj
          have hhid : ∀ j, (getW w j).isHiddenF = true →
              (getW (updW (updW w t (fun s => { s with isVisibleF := true })) t
                (fun s => { s with isAttachedF := true })) j).isVisibleF =
                (getW w j).isVisibleF := by
            intro j hj
            rw [getW_updW_pres _ t j (fun s => { s with isAttachedF := true })
              Widget.isVisibleF (fun s => rfl)]
            simp only [getW_updW]
            split
            · next hjt =>
              rw [hjt] at hj
              rw [hj] at hvc
              simp at hvc
            · rfl
          have hbox : ∀ j, (getW w j).boxSizing = none →
              (getW (updW (updW w t (fun s => { s with isVisibleF := true })) t
                (fun s => { s with isAttachedF := true })) j).boxSizing = none := by
            intro j hj
            rw [getW_updW_pres _ t j (fun s => { s with isAttachedF := true })
              Widget.boxSizing (fun s => rfl)]
            rw [getW_updW_pres w t j (fun s => { s with isVisibleF := true })
              Widget.boxSizing (fun s => rfl)]
            exact hj
          refine ⟨?_, ?_, ?_, ?_, ?_, ?_, ?_⟩
          · intro j; rw [IH.1 j, hcore j]
          · intro j hj; exact IH.2.1 j (hatt j hj)
          · intro j hj; exact IH.2.2.1 j (hvis j hj)
          · intro j hj
            have h2 := IH.2.2.2.1 j (by rw [core_isHiddenF (hcore j)]; exact hj)
            rw [h2, hhid j hj]
          · intro j hj; exact IH.2.2.2.2.1 j (hbox j hj)
          · intro _
            refine ⟨IH.2.1 t (by simp [getW_updW_self]), ?_⟩
            intro ch hch
            refine IH.2.2.2.2.2.1 rfl ch ?_
            rw [core_children (hcore t)]
            exact hch
          · intro hmq; cases hmq
        · rw [if_neg hvc] at h
          have IH := ih _ _ _ (by exact Or.inr rfl) h
          have hcore : ∀ j,
              (getW (updW w t (fun s => { s with isAttachedF := true })) j).core =
                (getW w j).core :=
            fun j => getW_updW_pres w t j (fun s => { s with isAttachedF := true })
              Widget.core (fun s => rfl)
          refine ⟨?_, ?_, ?_, ?_, ?_, ?_, ?_⟩
          · intro j; rw [IH.1 j, hcore j]
          · intro j hj
            exact IH.2.1 j (updW_mono w t j _ Widget.isAttachedF true (fun s => rfl) hj)
          · intro j hj
            refine IH.2.2.1 j ?_
            rw [getW_updW_pres w t j (fun s => { s with isAttachedF := true })
              Widget.isVisibleF (fun s => rfl)]
            exact hj
          · intro j hj
            have h2 := IH.2.2.2.1 j (by rw [core_isHiddenF (hcore j)]; exact hj)
            rw [h2]
            exact getW_updW_pres w t j (fun s => { s with isAttachedF := true })
              Widget.isVisibleF (fun s => rfl)
          · intro j hj
            refine IH.2.2.2.2.1 j ?_
            rw [getW_updW_pres w t j (fun s => { s with isAttachedF := true })
              Widget.boxSizing (fun s => rfl)]
            exact hj
          · intro _
            refine ⟨IH.2.1 t (by simp [getW_updW_self]), ?_⟩
            intro ch hch
            refine IH.2.2.2.2.2.1 rfl ch ?_
            rw [core_children (hcore t)]
            exact hch
          · intro hmq; cases hmq
    | sAll cs m =>
      cases cs with
      | nil =>
        rw [step_sAll_nil] at h
        obtain rfl := Option.some.inj h
        refine ⟨fun j => rfl, fun j hj => hj, fun j hj => hj, fun j _ => rfl,
          fun j hj => hj, ?_, ?_⟩
        · intro _ ch hch; cases hch
        · intro _ ch hch; cases hch
      | cons c0 rest =>
        rw [step_sAll_cons] at h
        rw [Option.bind_eq_some] at h
        obtain ⟨wm, hm1, hm2⟩ := h
        have IH1 := ih w (.send c0 m) wm hc hm1
        have IH2 := ih wm (.sAll rest m) w' hc hm2
        refine ⟨?_, ?_, ?_, ?_, ?_, ?_, ?_⟩
        · intro j; rw [IH2.1 j, IH1.1 j]
        · intro j hj; exact IH2.2.1 j (IH1.2.1 j hj)
        · intro j hj; exact IH2.2.2.1 j (IH1.2.2.1 j hj)
        · intro j hj
          have hj2 : (getW wm j).isHiddenF = true := by
            rw [core_isHiddenF (IH1.1 j)]; exact hj
          rw [IH2.2.2.2.1 j hj2, IH1.2.2.2.1 j hj]
        · intro j hj; exact IH2.2.2.2.2.1 j (IH1.2.2.2.2.1 j hj)
        · rintro rfl ch hch
          rcases List.mem_cons.mp hch with rfl | hch
          · exact IH2.2.1 ch ((IH1.2.2.2.2.2.1 rfl).1)
          · exact IH2.2.2.2.2.2.1 rfl ch hch
        · rintro rfl ch hch
          rcases List.mem_cons.mp hch with rfl | hch
          · exact IH2.2.2.2.2.1 ch ((IH1.2.2.2.2.2.2 rfl).1)
          · exact IH2.2.2.2.2.2.2 rfl ch hch

/-- C5: `attach(host)` fails for every non-root widget without touching any
state (the error is thrown before any message).  For a root it delivers
`before-attach` (clearing box caches and reaching all children, hidden or
not), inserts the node into the host, then delivers `after-attach`, which
always sets the Attached flag and sets the Visible flag exactly when the
widget is not Hidden and has no parent or a visible parent — in particular a
hidden root becomes attached but stays invisible, and every child (hidden
ones included) becomes attached with a cleared box cache. -/
theorem c5_attach :
    (∀ (f : Nat) (w : World) (t p : WidgetId) (h : HostId),
      (getW w t).parent = some p →
      attachOp f w t h = some (Except.error WErr.nonRootAttach)) ∧
    (∀ (f : Nat) (w : World) (t : WidgetId) (h : HostId) (w' : World),
      (getW w t).parent = none → attachOp f w t h = some (Except.ok w') →
      (getW w' t).isAttachedF = true ∧
      (getW w' t).nodeParent = some (DomParent.host h) ∧
      (getW w' t).isHiddenF = (getW w t).isHiddenF ∧
      ((getW w t).isVisibleF = false →
        ((getW w' t).isVisibleF = true ↔ (getW w t).isHiddenF = false)) ∧
      (∀ ch ∈ (getW w t).children,
        (getW w' ch).isAttachedF = true ∧ (getW w' ch).boxSizing = none)) := by
  constructor
  · intro f w t p h hp
    unfold attachOp
    rw [if_pos (by rw [hp]; rfl)]
  · intro f w t h w' hp h2
    unfold attachOp at h2
    rw [if_neg (by rw [hp]; simp)] at h2
    rw [Option.map_eq_some'] at h2
    obtain ⟨w2, hsteps, heq⟩ := h2
    obtain rfl : w' = w2 := by
      have hq : w2 = w' := by injection heq
      exact hq.symm
    rw [Option.bind_eq_some] at hsteps
    obtain ⟨w1, hbA, haA⟩ := hsteps
    have M1 := attach_fan_mono f w (.send t .beforeAttach) w1 (by exact Or.inl rfl) hbA
    have M2 := attach_fan_mono f (setNodeParent w1 t (some (.host h)))
      (.send t .afterAttach) w' (by exact Or.inr rfl) haA
    have hcoreS : ∀ j, (getW (setNodeParent w1 t (some (.host h))) j).core =
        { (getW w1 j).core with nodeParent :=
          (getW (setNodeParent w1 t (some (.host h))) j).nodeParent } := by
      intro j
      unfold setNodeParent
      simp only [getW_updW]
      split
      · next hjt => subst hjt; rfl
      · rfl
    have hhidS : ∀ j, (getW (setNodeParent w1 t (some (.host h))) j).isHiddenF =
        (getW w1 j).isHiddenF := by
      intro j
      unfold setNodeParent
      exact getW_updW_pres w1 t j _ Widget.isHiddenF (fun s => rfl)
    have hvisS : ∀ j, (getW (setNodeParent w1 t (some (.host h))) j).isVisibleF =
        (getW w1 j).isVisibleF := by
      intro j
      unfold setNodeParent
      exact getW_updW_pres w1 t j _ Widget.isVisibleF (fun s => rfl)
    have hattS : ∀ j, (getW (setNodeParent w1 t (some (.host h))) j).isAttachedF =
        (getW w1 j).isAttachedF := by
      intro j
      unfold setNodeParent
      exact getW_updW_pres w1 t j _ Widget.isAttachedF (fun s => rfl)
    have hboxS : ∀ j, (getW (setNodeParent w1 t (some (.host h))) j).boxSizing =
        (getW w1 j).boxSizing := by
      intro j
      unfold setNodeParent
      exact getW_updW_pres w1 t j _ Widget.boxSizing (fun s => rfl)
    have hchS : ∀ j, (getW (setNodeParent w1 t (some (.host h))) j).children =
        (getW w1 j).children := by
      intro j
      unfold setNodeParent
      exact getW_updW_pres w1 t j _ Widget.children (fun s => rfl)
    have hparS : ∀ j, (getW (setNodeParent w1 t (some (.host h))) j).parent =
        (getW w1 j).parent := by
      intro j
      unfold setNodeParent
      exact getW_updW_pres w1 t j _ Widget.parent (fun s => rfl)
    have hhid1 : ∀ j, (getW w1 j).isHiddenF = (getW w j).isHiddenF :=
      fun j => core_isHiddenF (M1.1 j)
    have hch1 : ∀ j, (getW w1 j).children = (getW w j).children :=
      fun j => core_children (M1.1 j)
    have hpar1 : ∀ j, (getW w1 j).parent = (getW w j).parent :=
      fun j => core_parent (M1.1 j)
    refine ⟨(M2.2.2.2.2.2.1 rfl).1, ?_, ?_, ?_, ?_⟩
    · rw [core_nodeParent (M2.1 t)]
      unfold setNodeParent
      simp [getW_updW_self]
    · rw [core_isHiddenF (M2.1 t), hhidS t, hhid1 t]
    · intro hv
      constructor
      · intro hv'
        cases hhw : (getW w t).isHiddenF with
        | false => rfl
        | true =>
          have hstep := M2.2.2.2.1 t (by rw [hhidS t, hhid1 t]; exact hhw)
          rw [hstep, hvisS t] at hv'
          have hv1 := M1.2.2.2.1 t hhw
          rw [hv1, hv] at hv'
          cases hv'
      · intro hh
        match f, haA with
        | fq + 1 + 1, haA =>
          rw [step_send, step_proc_afterAttach] at haA
          dsimp only at haA
          have e1 : (getW (pushLog (setNodeParent w1 t (some (.host h))) t
              Msg.afterAttach) t).isHiddenF = false := by
            rw [pushLog_getW, hhidS t, hhid1 t]
            exact hh
          have e2 : (getW (pushLog (setNodeParent w1 t (some (.host h))) t
              Msg.afterAttach) t).parent = none := by
            rw [pushLog_getW, hparS t, hpar1 t]
            exact hp
          split at haA
          · have M3 := attach_fan_mono fq _ _ _ (by exact Or.inr rfl) haA
            refine M3.2.2.1 t ?_
            rw [getW_updW_pres _ t t (fun s => { s with isAttachedF := true })
              Widget.isVisibleF (fun s => rfl)]
            simp [getW_updW_self]
          · next hcnd =>
            rw [e1, e2] at hcnd
            exact absurd rfl hcnd
    · intro ch hch
      constructor
      · refine (M2.2.2.2.2.2.1 rfl).2 ch ?_
        rw [hchS t, hch1 t]
        exact hch
      · have hb1 := (M1.2.2.2.2.2.2 rfl).2 ch hch
        refine M2.2.2.2.2.1 ch ?_
        rw [hboxS ch]
        exact hb1

/-- C5 witness: on `c5World`, attaching widget 3 (a child of widget 4) fails
with the non-root error; attaching the hidden root widget 0 succeeds, marks
it Attached but not Visible, and both children (the hidden widget 1 with its
cached box, and widget 2) end up Attached with cleared box caches. -/
theorem c5_witness :
    attachOp 10 c5World 3 7 = some (Except.error WErr.nonRootAttach) ∧
    attachOp 50 c5World 0 7 = some (Except.ok c5Out) ∧
    (getW c5Out 0).isAttachedF = true ∧
    (getW c5Out 0).nodeParent = some (DomParent.host 7) ∧
    (getW c5Out 0).isHiddenF = true ∧
    (getW c5Out 0).isVisibleF = false ∧
    (getW c5Out 1).isAttachedF = true ∧ (getW c5Out 1).boxSizing = none ∧
    (getW c5Out 2).isAttachedF = true ∧ (getW c5Out 2).boxSizing = none := by
  have hrun : attachOp 50 c5World 0 7 = some (Except.ok c5Out) := rfl
  have h2 := c5_attach.2 50 c5World 0 7 c5Out rfl hrun
  have hc1 := h2.2.2.2.2 1 (by simp [c5World, getW, baseWorld, Widget.init])
  have hc2 := h2.2.2.2.2 2 (by simp [c5World, getW, baseWorld, Widget.init])
  exact ⟨c5_attach.1 10 c5World 3 4 7 rfl, hrun, h2.1, h2.2.1, rfl, rfl,
    hc1.1, hc1.2, hc2.1, hc2.2⟩

theorem structEq_refl (a : Widget) : structEq a a := ⟨rfl, rfl, rfl, rfl, rfl⟩

theorem structEq_trans {a b c : Widget} (h1 : structEq a b) (h2 : structEq b c) :
    structEq a c :=
  ⟨h1.1.trans h2.1, h1.2.1.trans h2.2.1, h1.2.2.1.trans h2.2.2.1,
    h1.2.2.2.1.trans h2.2.2.2.1, h1.2.2.2.2.trans h2.2.2.2.2⟩

theorem structEq_updW (w : World) (t j : WidgetId) (fn : Widget → Widget)
    (hfn : ∀ s, structEq (fn s) s) :
    structEq (getW (updW w t fn) j) (getW w j) := by
  simp only [getW_updW]
  split
  · next hjt => subst hjt; exact hfn _
  · exact structEq_refl _

theorem structEq_setNodeParent (w : World) (t j : WidgetId) (p : Option DomParent) :
    structEq (getW (setNodeParent w t p) j) (getW w j) := by
  unfold setNodeParent
  exact structEq_updW _ _ _ _ (fun s => ⟨rfl, rfl, rfl, rfl, rfl⟩)

/-- A run of any detach-family call, or of the `detach` body, leaves the
disposal log and every widget's tree-structure fields unchanged: the handlers
only touch the Visible/Attached flags, and `detach` additionally the target's
node parent. -/
theorem detach_pres : ∀ (f : Nat) (w : World) (c : Call) (w' : World),
    dPres c → step f w c = some w' →
    w'.disposeLog = w.disposeLog ∧ ∀ j, structEq (getW w' j) (getW w j) := by
  intro f
  induction f with
  | zero =>
    intro w c w' _ h
    rw [step_zero] at h
    simp at h
  | succ f ih =>
    intro w c w' hc h
    cases c with
    | sNH cs m => exact False.elim hc
    | setPar t p => exact False.elim hc
    | send t m =>
      rw [step_send] at h
      have IH := ih (pushLog w t m) (.proc t m) w' hc h
      exact ⟨IH.1, IH.2⟩
    | proc t m =>
      rcases hc with hm | hm
      · subst hm
        rw [step_proc_beforeDetach] at h
        exact ih _ _ _ (by exact Or.inl rfl) h
      · subst hm
        rw [step_proc_afterDetach] at h
        have IH := ih _ _ _ (by exact Or.inr rfl) h
        refine ⟨IH.1, ?_⟩
        intro j
        exact structEq_trans (IH.2 j)
          (structEq_updW w t j _ (fun s => ⟨rfl, rfl, rfl, rfl, rfl⟩))
    | sAll cs m =>
      cases cs with
      | nil =>
        rw [step_sAll_nil] at h
        obtain rfl := Option.some.inj h
        exact ⟨rfl, fun j => structEq_refl _⟩
      | cons c0 rest =>
        rw [step_sAll_cons] at h
        rw [Option.bind_eq_some] at h
        obtain ⟨wm, hm1, hm2⟩ := h
        have IH1 := ih w (.send c0 m) wm hc hm1
        have IH2 := ih wm (.sAll rest m) w' hc hm2
        exact ⟨IH2.1.trans IH1.1, fun j => structEq_trans (IH2.2 j) (IH1.2 j)⟩
    | detachB t =>
      rw [step_detachB] at h
      split at h
      · obtain rfl := Option.some.inj h
        exact ⟨rfl, fun j => structEq_refl _⟩
      · rw [Option.bind_eq_some] at h
        obtain ⟨w1, h1, h2⟩ := h
        have IH1 := ih _ _ _ (by exact Or.inl rfl) h1
        have IH2 := ih _ _ _ (by exact Or.inr rfl) h2
        refine ⟨IH2.1.trans IH1.1, ?_⟩
        intro j
        exact structEq_trans (IH2.2 j)
          (structEq_trans (structEq_setNodeParent w1 t j none) (IH1.2 j))

theorem WTree_size_pos (tr : WTree) : 1 ≤ tr.size := by
  cases tr with
  | node i kids => simp [WTree.size]

theorem root_mem_ids (tr : WTree) : tr.root ∈ tr.ids := by
  cases tr with
  | node i kids => simp [WTree.root, WTree.ids]

theorem ids_eq_root_cons_tail (tr : WTree) : tr.ids = tr.root :: tr.ids.tail := by
  cases tr with
  | node i kids => simp [WTree.root, WTree.ids]

theorem root_not_mem_tail {k : WTree} (hnd : k.ids.Nodup) : k.root ∉ k.ids.tail := by
  cases k with
  | node r kk =>
    simp only [WTree.ids, WTree.root, List.tail_cons] at hnd ⊢
    exact (List.nodup_cons.mp hnd).1

theorem mem_idsList (k : WTree) (ks : List WTree) (hk : k ∈ ks) {j : WidgetId}
    (hj : j ∈ k.ids) : j ∈ WTree.idsList ks := by
  induction ks with
  | nil => cases hk
  | cons a as ihk =>
    rcases List.mem_cons.mp hk with rfl | hk2
    · simp only [WTree.idsList, List.mem_append]
      exact Or.inl hj
    · simp only [WTree.idsList, List.mem_append]
      exact Or.inr (ihk hk2)

theorem all_congr_mem {α : Type} (l : List α) (f g : α → Bool)
    (h : ∀ a ∈ l, f a = g a) : l.all f = l.all g := by
  induction l with
  | nil => rfl
  | cons a as ihl =>
    simp only [List.all_cons]
    rw [h a (List.mem_cons_self a _), ihl (fun b hb => h b (List.mem_cons_of_mem _ hb))]

/-- Realization of a tree shape only reads the child lists of the tree's
members and the parent links of its non-root members, so it transfers
between any two worlds agreeing there (size-indexed form for the nested
recursion). -/
theorem realizes_congr_n : ∀ (n : Nat) (w w2 : World),
    (∀ (tr : WTree), tr.size ≤ n →
      (∀ j, j ∈ tr.ids → (getW w2 j).children = (getW w j).children) →
      (∀ j, j ∈ tr.ids.tail → (getW w2 j).parent = (getW w j).parent) →
      realizes w2 tr = realizes w tr) ∧
    (∀ (ks : List WTree), WTree.sizeList ks ≤ n →
      (∀ j, j ∈ WTree.idsList ks → (getW w2 j).children = (getW w j).children) →
      (∀ j, j ∈ WTree.idsList ks → (getW w2 j).parent = (getW w j).parent) →
      allRealize w2 ks = allRealize w ks) := by
  intro n
  induction n with
  | zero =>
    intro w w2
    constructor
    · intro tr hsz
      exact absurd hsz (by have := WTree_size_pos tr; omega)
    · intro ks hsz hch hpar
      cases ks with
      | nil => rfl
      | cons k ks2 =>
        exfalso
        have := WTree_size_pos k
        simp only [WTree.sizeList] at hsz
        omega
  | succ n ihn =>
    intro w w2
    have T1 : ∀ (tr : WTree), tr.size ≤ n + 1 →
        (∀ j, j ∈ tr.ids → (getW w2 j).children = (getW w j).children) →
        (∀ j, j ∈ tr.ids.tail → (getW w2 j).parent = (getW w j).parent) →
        realizes w2 tr = realizes w tr := by
      intro tr hsz hch hpar
      cases tr with
      | node i kids =>
        have hsz2 : WTree.sizeList kids ≤ n := by
          simp only [WTree.size] at hsz
          omega
        have hids : (WTree.node i kids).ids = i :: WTree.idsList kids := by
          simp [WTree.ids]
        have htail : (WTree.node i kids).ids.tail = WTree.idsList kids := by
          rw [hids]
          rfl
        have hchi : (getW w2 i).children = (getW w i).children :=
          hch i (by rw [hids]; exact List.mem_cons_self i _)
        have hchk : ∀ j, j ∈ WTree.idsList kids →
            (getW w2 j).children = (getW w j).children := by
          intro j hj
          exact hch j (by rw [hids]; exact List.mem_cons_of_mem _ hj)
        have hpark : ∀ j, j ∈ WTree.idsList kids →
            (getW w2 j).parent = (getW w j).parent := by
          intro j hj
          exact hpar j (by rw [htail]; exact hj)
        have hall := (ihn w w2).2 kids hsz2 hchk hpark
        simp only [realizes]
        rw [hchi, hall,
          all_congr_mem kids (fun k => decide ((getW w2 k.root).parent = some i))
            (fun k => decide ((getW w k.root).parent = some i))
            (fun k hk => by
              simp only [hpark k.root (mem_idsList k kids hk (root_mem_ids k))])]
    have T2 : ∀ (ks : List WTree), WTree.sizeList ks ≤ n + 1 →
        (∀ j, j ∈ WTree.idsList ks → (getW w2 j).children = (getW w j).children) →
        (∀ j, j ∈ WTree.idsList ks → (getW w2 j).parent = (getW w j).parent) →
        allRealize w2 ks = allRealize w ks := by
      intro ks hsz hch hpar
      cases ks with
      | nil => rfl
      | cons k ks2 =>
        have hk1 : k.size ≤ n + 1 := by
          simp only [WTree.sizeList] at hsz
          omega
        have hksz : WTree.sizeList ks2 ≤ n := by
          have := WTree_size_pos k
          simp only [WTree.sizeList] at hsz
          omega
        have hidscons : WTree.idsList (k :: ks2) = k.ids ++ WTree.idsList ks2 := by
          simp [WTree.idsList]
        have hchk : ∀ j, j ∈ k.ids → (getW w2 j).children = (getW w j).children := by
          intro j hj
          exact hch j (by rw [hidscons]; exact List.mem_append_left _ hj)
        have hparkt : ∀ j, j ∈ k.ids.tail → (getW w2 j).parent = (getW w j).parent := by
          intro j hj
          refine hpar j ?_
          rw [hidscons]
          exact List.mem_append_left _ (List.mem_of_mem_tail hj)
        have hch2 : ∀ j, j ∈ WTree.idsList ks2 →
            (getW w2 j).children = (getW w j).children := by
          intro j hj
          exact hch j (by rw [hidscons]; exact List.mem_append_right _ hj)
        have hpar2 : ∀ j, j ∈ WTree.idsList ks2 →
            (getW w2 j).parent = (getW w j).parent := by
          intro j hj
          exact hpar j (by rw [hidscons]; exact List.mem_append_right _ hj)
        have h1 := T1 k hk1 hchk hparkt
        have h2 := (ihn w w2).2 ks2 hksz hch2 hpar2
        simp only [allRealize]
        rw [h1, h2]
    exact ⟨T1, T2⟩

theorem realizes_congr (w w2 : World) (tr : WTree)
    (hch : ∀ j, j ∈ tr.ids → (getW w2 j).children = (getW w j).children)
    (hpar : ∀ j, j ∈ tr.ids.tail → (getW w2 j).parent = (getW w j).parent) :
    realizes w2 tr = realizes w tr :=
  (realizes_congr_n tr.size w w2).1 tr le_rfl hch hpar

theorem allRealize_congr (w w2 : World) (ks : List WTree)
    (hch : ∀ j, j ∈ WTree.idsList ks → (getW w2 j).children = (getW w j).children)
    (hpar : ∀ j, j ∈ WTree.idsList ks → (getW w2 j).parent = (getW w j).parent) :
    allRealize w2 ks = allRealize w ks :=
  (realizes_congr_n (WTree.sizeList ks) w w2).2 ks le_rfl hch hpar

theorem disposedState_structEq {w w2 : World} {n : WidgetId}
    (hse : structEq (getW w2 n) (getW w n)) (hd : disposedState w n) :
    disposedState w2 n := by
  obtain ⟨h1, h2, h3, h4, h5⟩ := hse
  obtain ⟨d1, d2, d3, d4, d5⟩ := hd
  exact ⟨h4.trans d1, h5.trans d2, h3.trans d3, h1.trans d4, h2.trans d5⟩

theorem disposeStep_one (f : Nat) (w : World) (t : WidgetId) :
    disposeStep (f + 1) w (.one t) =
      (let wA := { w with disposeLog := w.disposeLog ++ [t] }
       let wB := clearMsgData wA t
       let wC := updW wB t (fun s => { s with isDisposedF := true })
       let wE := match (getW wC t).layout with
         | some l => layoutDispose (updW wC t (fun s => { s with layout := none })) l
         | none => wC
       (match (getW wE t).parent with
        | some p =>
          let w1 := updW wE t (fun s => { s with parent := none })
          let w2 := updW w1 p (fun s => { s with children := s.children.erase t })
          step f w2 (.send p (.childRemoved t))
        | none =>
          if (getW wE t).isAttachedF then step f wE (.detachB t) else some wE
       ).bind fun w5 =>
       (disposeStep f w5 (.many (getW w5 t).children)).bind fun w6 =>
       some (updW w6 t (fun s => { s with children := [], nodeAlive := false }))) := rfl

theorem disposeStep_many_nil (f : Nat) (w : World) :
    disposeStep (f + 1) w (.many []) = some w := rfl

theorem disposeStep_many_cons (f : Nat) (w : World) (c0 : WidgetId) (cs : List WidgetId) :
    disposeStep (f + 1) w (.many (c0 :: cs)) =
      (disposeStep f (updW w c0 (fun s => { s with parent := none })) (.one c0)).bind
        fun w2 => disposeStep f w2 (.many cs) := rfl

/-- Fuel-indexed induction for `Widget.dispose`: disposing the root of a
realized tree whose root is unparented appends exactly the tree's preorder
ids to the disposal log, leaves every tree member fully torn down, and leaves
the tree-structure fields of every other widget untouched; the companion
statement covers the child loop over a realized forest. -/
theorem dispose_run : ∀ (f : Nat),
    (∀ (tr : WTree) (w w' : World),
      realizes w tr = true → tr.ids.Nodup →
      (getW w tr.root).parent = none →
      disposeStep f w (.one tr.root) = some w' →
      w'.disposeLog = w.disposeLog ++ tr.ids ∧
      (∀ n ∈ tr.ids, disposedState w' n) ∧
      (∀ j, j ∉ tr.ids → structEq (getW w' j) (getW w j))) ∧
    (∀ (ks : List WTree) (w w' : World),
      allRealize w ks = true → (WTree.idsList ks).Nodup →
      disposeStep f w (.many (ks.map WTree.root)) = some w' →
      w'.disposeLog = w.disposeLog ++ WTree.idsList ks ∧
      (∀ n ∈ WTree.idsList ks, disposedState w' n) ∧
      (∀ j, j ∉ WTree.idsList ks → structEq (getW w' j) (getW w j))) := by
  intro f
  induction f with
  | zero =>
    constructor
    · intro tr w w' _ _ _ h
      rw [show disposeStep 0 w (.one tr.root) = none from rfl] at h
      cases h
    · intro ks w w' _ _ h
      rw [show disposeStep 0 w (.many (ks.map WTree.root)) = none from rfl] at h
      cases h
  | succ f ihf =>
    obtain ⟨ih1, ih2⟩ := ihf
    constructor
    · rintro ⟨i, kids⟩ w w' hreal hnd hp h
      simp only [WTree.root] at hp h
      rw [disposeStep_one] at h
      simp only [Option.bind_eq_some] at h
      obtain ⟨w5, h5, w6, h6, hfin⟩ := h
      obtain rfl := Option.some.inj hfin
      have hreal' := hreal
      simp only [realizes, Bool.and_eq_true, decide_eq_true_eq, List.all_eq_true] at hreal'
      obtain ⟨⟨hchildren, hkidpar⟩, hallk⟩ := hreal'
      have hids : (WTree.node i kids).ids = i :: WTree.idsList kids := by
        simp [WTree.ids]
      rw [hids] at hnd
      have hnotin : i ∉ WTree.idsList kids := (List.nodup_cons.mp hnd).1
      have hndk : (WTree.idsList kids).Nodup := (List.nodup_cons.mp hnd).2
      have hgwC : ∀ j, getW (updW (clearMsgData { w with disposeLog := w.disposeLog ++ [i] } i)
          i (fun s => { s with isDisposedF := true })) j =
          (if j = i then { getW w j with isDisposedF := true } else getW w j) := by
        intro j
        by_cases hji : j = i
        · subst hji
          rw [getW_updW_self, if_pos rfl]
          rfl
        · rw [getW_updW_ne _ _ _ _ hji, if_neg hji]
          rfl
      obtain ⟨wE, h5E, hEne, hEch, hEpar, hEdis, hElay, hEna, hEdl⟩ :
          ∃ wE : World,
            (if (getW wE i).isAttachedF then step f wE (.detachB i) else some wE) = some w5 ∧
            (∀ j, j ≠ i → getW wE j = getW w j) ∧
            (getW wE i).children = (getW w i).children ∧
            (getW wE i).parent = none ∧
            (getW wE i).isDisposedF = true ∧
            (getW wE i).layout = none ∧
            (getW wE i).nodeAlive = (getW w i).nodeAlive ∧
            wE.disposeLog = w.disposeLog ++ [i] := by
        have hLC : (getW (updW (clearMsgData { w with disposeLog := w.disposeLog ++ [i] } i)
            i (fun s => { s with isDisposedF := true })) i).layout = (getW w i).layout := by
          rw [hgwC i, if_pos rfl]
        cases hL : (getW w i).layout with
        | none =>
          simp only [hLC, hL] at h5
          have hPE : (getW (updW (clearMsgData { w with disposeLog := w.disposeLog ++ [i] } i)
              i (fun s => { s with isDisposedF := true })) i).parent = none := by
            rw [hgwC i, if_pos rfl]
            exact hp
          simp only [hPE] at h5
          refine ⟨_, h5, ?_, ?_, hPE, ?_, ?_, ?_, rfl⟩
          · intro j hji
            rw [hgwC j, if_neg hji]
          · rw [hgwC i, if_pos rfl]
          · rw [hgwC i, if_pos rfl]
          · rw [hgwC i, if_pos rfl]
            exact hL
          · rw [hgwC i, if_pos rfl]
        | some l =>
          simp only [hLC, hL] at h5
          have hgwE : ∀ j, getW (layoutDispose (updW (updW (clearMsgData
              { w with disposeLog := w.disposeLog ++ [i] } i) i
              (fun s => { s with isDisposedF := true })) i
              (fun s => { s with layout := none })) l) j =
              (if j = i then { getW w j with isDisposedF := true, layout := none }
               else getW w j) := by
            intro j
            rw [layoutDispose_getW]
            by_cases hji : j = i
            · subst hji
              rw [getW_updW_self, hgwC j, if_pos rfl, if_pos rfl]
            · rw [getW_updW_ne _ _ _ _ hji, hgwC j, if_neg hji, if_neg hji]
          have hPE : (getW (layoutDispose (updW (updW (clearMsgData
              { w with disposeLog := w.disposeLog ++ [i] } i) i
              (fun s => { s with isDisposedF := true })) i
              (fun s => { s with layout := none })) l) i).parent = none := by
            rw [hgwE i, if_pos rfl]
            exact hp
          simp only [hPE] at h5
          refine ⟨_, h5, ?_, ?_, hPE, ?_, ?_, ?_, rfl⟩
          · intro j hji
            rw [hgwE j, if_neg hji]
          · rw [hgwE i, if_pos rfl]
          · rw [hgwE i, if_pos rfl]
          · rw [hgwE i, if_pos rfl]
          · rw [hgwE i, if_pos rfl]
      have hw5 : w5.disposeLog = wE.disposeLog ∧ ∀ j, structEq (getW w5 j) (getW wE j) := by
        split at h5E
        · exact detach_pres f wE (.detachB i) w5 True.intro h5E
        · obtain rfl := Option.some.inj h5E
          exact ⟨rfl, fun j => structEq_refl _⟩
      have hch5i : (getW w5 i).children = kids.map WTree.root := by
        rw [(hw5.2 i).1, hEch, hchildren]
      rw [hch5i] at h6
      have hkch : ∀ j, j ∈ WTree.idsList kids →
          (getW w5 j).children = (getW w j).children := by
        intro j hj
        have hji : j ≠ i := fun e => hnotin (e ▸ hj)
        rw [(hw5.2 j).1, hEne j hji]
      have hkpar : ∀ j, j ∈ WTree.idsList kids →
          (getW w5 j).parent = (getW w j).parent := by
        intro j hj
        have hji : j ≠ i := fun e => hnotin (e ▸ hj)
        rw [(hw5.2 j).2.1, hEne j hji]
      have hall5 : allRealize w5 kids = true := by
        rw [allRealize_congr w w5 kids hkch hkpar]
        exact hallk
      have hIHf := ih2 kids w5 w6 hall5 hndk h6
      refine ⟨?_, ?_, ?_⟩
      · rw [updW_disposeLog, hIHf.1, hw5.1, hEdl, hids, List.append_assoc]
        rfl
      · intro n hn
        rw [hids] at hn
        obtain hni | hn2 := List.mem_cons.mp hn
        · rw [hni]
          have hS6E : structEq (getW w6 i) (getW wE i) :=
            structEq_trans (hIHf.2.2 i hnotin) (hw5.2 i)
          have hgi : getW (updW w6 i (fun s => { s with children := [], nodeAlive := false })) i
              = { getW w6 i with children := [], nodeAlive := false } := getW_updW_self _ _ _
          refine ⟨?_, ?_, ?_, ?_, ?_⟩
          · rw [hgi]
            show (getW w6 i).isDisposedF = true
            rw [hS6E.2.2.2.1, hEdis]
          · rw [hgi]
          · rw [hgi]
            show (getW w6 i).layout = none
            rw [hS6E.2.2.1, hElay]
          · rw [hgi]
          · rw [hgi]
            show (getW w6 i).parent = none
            rw [hS6E.2.1, hEpar]
        · have hni : n ≠ i := fun e => hnotin (e ▸ hn2)
          have hgn : getW (updW w6 i (fun s => { s with children := [], nodeAlive := false })) n
              = getW w6 n := getW_updW_ne w6 i n _ hni
          exact disposedState_structEq (by rw [hgn]; exact structEq_refl _) (hIHf.2.1 n hn2)
      · intro j hj
        rw [hids] at hj
        have hji : j ≠ i := fun e => hj (by rw [e]; exact List.mem_cons_self i _)
        have hjk : j ∉ WTree.idsList kids := fun hin => hj (List.mem_cons_of_mem _ hin)
        have hgj : getW (updW w6 i (fun s => { s with children := [], nodeAlive := false })) j
            = getW w6 j := getW_updW_ne w6 i j _ hji
        rw [hgj]
        refine structEq_trans (hIHf.2.2 j hjk) (structEq_trans (hw5.2 j) ?_)
        rw [hEne j hji]
        exact structEq_refl _
    · intro ks w w' hall hnd h
      cases ks with
      | nil =>
        simp only [List.map_nil] at h
        rw [disposeStep_many_nil] at h
        obtain rfl := Option.some.inj h
        refine ⟨by simp [WTree.idsList], ?_, ?_⟩
        · intro n hn
          simp [WTree.idsList] at hn
        · intro j hj
          exact structEq_refl _
      | cons k ks2 =>
        simp only [List.map_cons] at h
        rw [disposeStep_many_cons] at h
        rw [Option.bind_eq_some] at h
        obtain ⟨w2, hk, hrest⟩ := h
        have hidsc : WTree.idsList (k :: ks2) = k.ids ++ WTree.idsList ks2 := by
          simp [WTree.idsList]
        rw [hidsc] at hnd
        rw [List.nodup_append] at hnd
        obtain ⟨hndk, hndks, hdisj⟩ := hnd
        simp only [allRealize, Bool.and_eq_true] at hall
        obtain ⟨hrk, hrks⟩ := hall
        have hch1 : ∀ j, (getW (updW w k.root (fun s => { s with parent := none })) j).children
            = (getW w j).children := fun j =>
          getW_updW_pres w k.root j _ Widget.children (fun s => rfl)
        have hpar1 : ∀ j, j ≠ k.root →
            (getW (updW w k.root (fun s => { s with parent := none })) j).parent
            = (getW w j).parent := by
          intro j hj
          rw [getW_updW_ne _ _ _ _ hj]
        have hrealw1 : realizes (updW w k.root (fun s => { s with parent := none })) k
            = true := by
          rw [realizes_congr w _ k (fun j _ => hch1 j)
            (fun j hj => hpar1 j (fun e => root_not_mem_tail hndk (e ▸ hj)))]
          exact hrk
        have hparn : (getW (updW w k.root (fun s => { s with parent := none })) k.root).parent
            = none := by
          rw [getW_updW_self]
        have hIH1 := ih1 k (updW w k.root (fun s => { s with parent := none })) w2
          hrealw1 hndk hparn hk
        have hchx : ∀ j, j ∈ WTree.idsList ks2 →
            (getW w2 j).children = (getW w j).children := by
          intro j hj
          have hjnk : j ∉ k.ids := fun hin => hdisj hin hj
          rw [(hIH1.2.2 j hjnk).1, hch1 j]
        have hparx : ∀ j, j ∈ WTree.idsList ks2 →
            (getW w2 j).parent = (getW w j).parent := by
          intro j hj
          have hjnk : j ∉ k.ids := fun hin => hdisj hin hj
          have hjr : j ≠ k.root := fun e => hjnk (e ▸ root_mem_ids k)
          rw [(hIH1.2.2 j hjnk).2.1, hpar1 j hjr]
        have hallw2 : allRealize w2 ks2 = true := by
          rw [allRealize_congr w w2 ks2 hchx hparx]
          exact hrks
        have hIH2 := ih2 ks2 w2 w' hallw2 hndks hrest
        refine ⟨?_, ?_, ?_⟩
        · rw [hIH2.1, hIH1.1, hidsc]
          simp only [updW_disposeLog]
          rw [List.append_assoc]
        · intro n hn
          rw [hidsc] at hn
          rcases List.mem_append.mp hn with hnk | hnks
          · have hnin2 : n ∉ WTree.idsList ks2 := fun hin => hdisj hnk hin
            exact disposedState_structEq (hIH2.2.2 n hnin2) (hIH1.2.1 n hnk)
          · exact hIH2.2.1 n hnks
        · intro j hj
          rw [hidsc] at hj
          have hjk : j ∉ k.ids := fun hin => hj (List.mem_append_left _ hin)
          have hjks : j ∉ WTree.idsList ks2 := fun hin => hj (List.mem_append_right _ hin)
          have hjr : j ≠ k.root := fun e => hjk (e ▸ root_mem_ids k)
          refine structEq_trans (hIH2.2.2 j hjks) (structEq_trans (hIH1.2.2 j hjk) ?_)
          rw [getW_updW_ne _ _ _ _ hjr]
          exact structEq_refl _

/-- C2: disposing the root of any realized widget tree (a root widget whose
world realizes the tree shape, with distinct member ids) runs `dispose` on
every node of that tree exactly once — the disposal log is extended by
exactly the tree's ids, each appearing once — and leaves every tree member
with the Disposed flag set, its node released, a null layout, an empty child
list and a null parent reference, while the tree-structure fields of every
widget outside the tree are untouched.  Because the tree is whatever the
world currently realizes, the statement also covers re-invocation on an
already-partially-torn-down tree: each still-linked node disposes exactly
once. -/
theorem c2_dispose (f : Nat) (tr : WTree) (w w' : World)
    (hreal : realizes w tr = true) (hnd : tr.ids.Nodup)
    (hroot : (getW w tr.root).parent = none)
    (h : disposeOp f w tr.root = some w') :
    w'.disposeLog = w.disposeLog ++ tr.ids ∧
    (∀ n ∈ tr.ids, disposedState w' n) ∧
    (∀ j, j ∉ tr.ids → structEq (getW w' j) (getW w j)) :=
  (dispose_run f).1 tr w w' hreal hnd hroot h

/-- C2 witness: on `c2World` (attached root 10 with children 11 and 12, the
latter holding layout 2 and child 13), disposing the root logs exactly
`[10, 11, 12, 13]` and fully tears down each of the four nodes, leaving the
unrelated widget 99 untouched. -/
theorem c2_witness :
    realizes c2World c2Tree = true ∧
    c2Tree.ids.Nodup ∧
    disposeOp 50 c2World 10 = some c2Out ∧
    c2Out.disposeLog = c2World.disposeLog ++ c2Tree.ids ∧
    c2Out.disposeLog = [10, 11, 12, 13] ∧
    disposedState c2Out 10 ∧ disposedState c2Out 11 ∧
    disposedState c2Out 12 ∧ disposedState c2Out 13 ∧
    structEq (getW c2Out 99) (getW c2World 99) := by
  have hreal : realizes c2World c2Tree = true := by decide
  have hnd : c2Tree.ids.Nodup := by decide
  have hrun : disposeOp 50 c2World 10 = some c2Out := rfl
  have H := c2_dispose 50 c2Tree c2World c2Out hreal hnd rfl hrun
  exact ⟨hreal, hnd, hrun, H.1, rfl,
    H.2.1 10 (by decide), H.2.1 11 (by decide),
    H.2.1 12 (by decide), H.2.1 13 (by decide),
    H.2.2 99 (by decide)⟩
